import Mathlib

/-!
Verification development for the launchwing-orchestrator repository.

The repository is TypeScript glue code running on Cloudflare Workers / Pages.
This file gives a shallow embedding of the parts of the code that the
specification's claims are about:

* the `/mvp` Pages function (`app/functions/api/mvp.ts`, `onRequestPost`):
  request validation, OpenAI-response parsing, the file-count / byte-size
  guardrail loop and the `_worker.js` proxy injection;
* the worker `/mvp` handler (`src/api/mvp.ts`): `extractOutputText`,
  `safeParseJson`, `callOpenAI` and the non-streaming `mvpHandler` path;
* the Cloudflare deploy helper (`src/utils/cloudflare.ts`, second revision):
  `uploadModuleWorker` with its ensure-service step and `waitForReadiness`;
* the GitHub export helpers (`src/utils/github.ts`): `ensureRepo` and
  `pushFilesWithContentsAPI`;
* the `/sandbox-deploy` handlers (first revision and the dual-mode revision)
  with `deployPagesDirect`, `deployWorker` and the name sanitisation, and the
  script-name computation of the stage-6 deploy (`deploy`, with `shortId`).

Network calls are modelled by explicit oracles: a record holding the response
each `fetch` of the function would observe.  JavaScript values flowing through
the handlers are modelled by the `JsonVal` type together with executable
models of the JavaScript semantics the code relies on (truthiness, `||`,
`?.` / `??` chains, `Object.entries`, string coercion, `JSON.parse` /
`JSON.stringify`).  Thrown JavaScript exceptions are modelled with `Except`.

Known, deliberately documented modelling approximations (none affects a
claim): `toLowerCase`/`trim` are modelled on ASCII (the sanitisers replace
every char outside `[a-z0-9-]` afterwards, so the proved pattern properties
are insensitive to this); JSON numbers keep their source text instead of
IEEE doubles (no claim computes with numbers); lone UTF-16 surrogates in
JSON string escapes become U+FFFD (Lean strings hold scalar values only).
-/

set_option autoImplicit false

namespace LaunchWing

/-! ## Small string utilities shared by the models -/

/-- The character `\x7b` (left curly brace), named to keep string literals readable. -/
def lbrace : Char := Char.ofNat 123

/-- The character `\x7d` (right curly brace). -/
def rbrace : Char := Char.ofNat 125

/-- Substring test on char lists (JavaScript `String.prototype.includes`). -/
def listContainsSub (pat : List Char) : List Char → Bool
  | [] => pat.isEmpty
  | c :: rest => pat.isPrefixOf (c :: rest) || listContainsSub pat rest

/-- JavaScript `s.includes(pat)`. -/
def strContains (s pat : String) : Bool :=
  listContainsSub pat.data s.data

/-- ASCII lower-casing, modelling JavaScript `toLowerCase` (see header note). -/
def strToLower (s : String) : String :=
  String.mk (s.data.map Char.toLower)

/-- Case-insensitive substring test, modelling a `/literal/i` regex test. -/
def containsCI (s pat : String) : Bool :=
  strContains (strToLower s) (strToLower pat)

/-- The WhiteSpace / LineTerminator set trimmed by JavaScript `trim()`. -/
def isJsTrimWs (c : Char) : Bool :=
  c = ' ' || c = '\t' || c = '\n' || c = '\r' || c.toNat = 11 || c.toNat = 12 ||
  c.toNat = 0xa0 || c.toNat = 0x1680 || (0x2000 ≤ c.toNat && c.toNat ≤ 0x200a) ||
  c.toNat = 0x2028 || c.toNat = 0x2029 || c.toNat = 0x202f || c.toNat = 0x205f ||
  c.toNat = 0x3000 || c.toNat = 0xfeff

/-- JavaScript `s.trim()`. -/
def jsTrim (s : String) : String :=
  String.mk (((s.data.dropWhile isJsTrimWs).reverse.dropWhile isJsTrimWs).reverse)

/-- UTF-8 byte size of a string: `new TextEncoder().encode(s).length`. -/
def utf8Len (s : String) : Nat := s.utf8ByteSize

/-- Index of the first occurrence of a character, JavaScript `s.indexOf(c)` (as an `Option`). -/
def firstIdxOf (s : String) (c : Char) : Option Nat :=
  s.data.findIdx? (· = c)

/-- Index of the last occurrence of a character, JavaScript `s.lastIndexOf(c)` (as an `Option`). -/
def lastIdxOf (s : String) (c : Char) : Option Nat :=
  (s.data.reverse.findIdx? (· = c)).map (fun i => s.data.length - 1 - i)

/-! ## JSON values

`JsonVal` models the JavaScript values the handlers pass around (everything
that can come out of `JSON.parse`).  Numbers keep their source text. -/

inductive JsonVal where
  | null
  | bool (b : Bool)
  | num (raw : String)
  | str (s : String)
  | arr (elems : List JsonVal)
  | obj (fields : List (String × JsonVal))
deriving Repr, Inhabited

/-- Property insertion with JavaScript object semantics: an existing key keeps
its position and gets the new value, a new key is appended. -/
def objInsert : List (String × JsonVal) → String → JsonVal → List (String × JsonVal)
  | [], k, v => [(k, v)]
  | (k', v') :: rest, k, v =>
    if k' = k then (k', v) :: rest else (k', v') :: objInsert rest k v

/-- Lookup of a field in an object's field list. -/
def lookupField : List (String × JsonVal) → String → Option JsonVal
  | [], _ => none
  | (k', v') :: rest, k => if k' = k then some v' else lookupField rest k

/-! ## A JSON parser modelling `JSON.parse`

Recursive-descent with explicit fuel; `jsonParse` hands every call enough
fuel that exhaustion is unreachable for the given input. -/

/-- JSON insignificant whitespace. -/
def isJsonWs (c : Char) : Bool :=
  c = ' ' || c = '\n' || c = '\r' || c = '\t'

/-- Skip JSON whitespace. -/
def skipWs (cs : List Char) : List Char :=
  cs.dropWhile isJsonWs

/-- Value of a hex digit. -/
def hexDigit (c : Char) : Option Nat :=
  if '0' ≤ c ∧ c ≤ '9' then some (c.toNat - 48)
  else if 'a' ≤ c ∧ c ≤ 'f' then some (c.toNat - 87)
  else if 'A' ≤ c ∧ c ≤ 'F' then some (c.toNat - 55)
  else none

/-- Value of four hex digits. -/
def hex4 (a b c d : Char) : Option Nat := do
  let x1 ← hexDigit a
  let x2 ← hexDigit b
  let x3 ← hexDigit c
  let x4 ← hexDigit d
  pure (((x1 * 16 + x2) * 16 + x3) * 16 + x4)

/-- Turn a code point into a `Char`, mapping invalid scalar values
(lone surrogates) to U+FFFD (see header note). -/
def codeChar (n : Nat) : Char :=
  if n.isValidChar then Char.ofNat n else Char.ofNat 0xFFFD

/-- Parse the body of a JSON string (after the opening quote), accumulating
characters; returns the string and the remaining input. -/
def parseJStr : Nat → List Char → List Char → Option (String × List Char)
  | 0, _, _ => none
  | _ + 1, [], _ => none
  | fuel + 1, c :: rest, acc =>
    if c = '"' then some (String.mk acc.reverse, rest)
    else if c = '\\' then
      match rest with
      | [] => none
      | e :: rest2 =>
        if e = '"' then parseJStr fuel rest2 ('"' :: acc)
        else if e = '\\' then parseJStr fuel rest2 ('\\' :: acc)
        else if e = '/' then parseJStr fuel rest2 ('/' :: acc)
        else if e = 'b' then parseJStr fuel rest2 (Char.ofNat 8 :: acc)
        else if e = 'f' then parseJStr fuel rest2 (Char.ofNat 12 :: acc)
        else if e = 'n' then parseJStr fuel rest2 ('\n' :: acc)
        else if e = 'r' then parseJStr fuel rest2 ('\r' :: acc)
        else if e = 't' then parseJStr fuel rest2 ('\t' :: acc)
        else if e = 'u' then
          match rest2 with
          | h1 :: h2 :: h3 :: h4 :: rest3 =>
            match hex4 h1 h2 h3 h4 with
            | none => none
            | some n =>
              if 0xD800 ≤ n ∧ n ≤ 0xDBFF then
                match rest3 with
                | '\\' :: 'u' :: g1 :: g2 :: g3 :: g4 :: rest4 =>
                  match hex4 g1 g2 g3 g4 with
                  | some m =>
                    if 0xDC00 ≤ m ∧ m ≤ 0xDFFF then
                      parseJStr fuel rest4
                        (codeChar (0x10000 + (n - 0xD800) * 0x400 + (m - 0xDC00)) :: acc)
                    else parseJStr fuel rest3 (codeChar 0xFFFD :: acc)
                  | none => parseJStr fuel rest3 (codeChar 0xFFFD :: acc)
                | _ => parseJStr fuel rest3 (codeChar 0xFFFD :: acc)
              else if 0xDC00 ≤ n ∧ n ≤ 0xDFFF then
                parseJStr fuel rest3 (codeChar 0xFFFD :: acc)
              else parseJStr fuel rest3 (codeChar n :: acc)
          | _ => none
        else none
    else if c.toNat < 0x20 then none
    else parseJStr fuel rest (c :: acc)

/-- Parse a JSON number (grammar `-?(0|[1-9][0-9]*)(\.[0-9]+)?([eE][+-]?[0-9]+)?`),
returning its source text. -/
def parseNum (cs : List Char) : Option (String × List Char) :=
  let (sign, cs1) :=
    match cs with
    | '-' :: r => (['-'], r)
    | _ => (([] : List Char), cs)
  match cs1 with
  | [] => none
  | c :: r =>
    if c = '0' then numFrac (sign ++ ['0']) r
    else if '1' ≤ c ∧ c ≤ '9' then
      let ds := r.takeWhile Char.isDigit
      numFrac (sign ++ c :: ds) (r.dropWhile Char.isDigit)
    else none
where
  numFrac (intPart : List Char) (cs : List Char) : Option (String × List Char) :=
    match cs with
    | '.' :: r =>
      let ds := r.takeWhile Char.isDigit
      if ds.isEmpty then none
      else numExp (intPart ++ '.' :: ds) (r.dropWhile Char.isDigit)
    | _ => numExp intPart cs
  numExp (mant : List Char) (cs : List Char) : Option (String × List Char) :=
    match cs with
    | c :: r =>
      if c = 'e' ∨ c = 'E' then
        let (sgn, r1) :=
          match r with
          | '+' :: r' => (['+'], r')
          | '-' :: r' => (['-'], r')
          | _ => (([] : List Char), r)
        let ds := r1.takeWhile Char.isDigit
        if ds.isEmpty then none
        else some (String.mk (mant ++ c :: sgn ++ ds), r1.dropWhile Char.isDigit)
      else some (String.mk mant, cs)
    | [] => some (String.mk mant, [])

mutual

/-- Parse one JSON value (leading whitespace allowed). -/
def parseVal : Nat → List Char → Option (JsonVal × List Char)
  | 0, _ => none
  | fuel + 1, cs =>
    match skipWs cs with
    | [] => none
    | c :: rest =>
      if c = '"' then
        match parseJStr (fuel + 1) rest [] with
        | some (s, r) => some (.str s, r)
        | none => none
      else if c = lbrace then
        match skipWs rest with
        | c2 :: r2 =>
          if c2 = rbrace then some (.obj [], r2)
          else parseMembers fuel rest []
        | [] => none
      else if c = '[' then
        match skipWs rest with
        | ']' :: r2 => some (.arr [], r2)
        | _ => parseElems fuel rest []
      else if c = 't' then
        match rest with
        | 'r' :: 'u' :: 'e' :: r => some (.bool true, r)
        | _ => none
      else if c = 'f' then
        match rest with
        | 'a' :: 'l' :: 's' :: 'e' :: r => some (.bool false, r)
        | _ => none
      else if c = 'n' then
        match rest with
        | 'u' :: 'l' :: 'l' :: r => some (.null, r)
        | _ => none
      else
        match parseNum (c :: rest) with
        | some (s, r) => some (.num s, r)
        | none => none

/-- Parse the members of a JSON object (input starts after the `\x7b`). -/
def parseMembers : Nat → List Char → List (String × JsonVal) →
    Option (JsonVal × List Char)
  | 0, _, _ => none
  | fuel + 1, cs, acc =>
    match skipWs cs with
    | '"' :: rest =>
      match parseJStr (fuel + 1) rest [] with
      | none => none
      | some (k, r1) =>
        match skipWs r1 with
        | ':' :: r2 =>
          match parseVal fuel r2 with
          | none => none
          | some (v, r3) =>
            let acc2 := objInsert acc k v
            match skipWs r3 with
            | ',' :: r4 => parseMembers fuel r4 acc2
            | c :: r4 => if c = rbrace then some (.obj acc2, r4) else none
            | [] => none
        | _ => none
    | _ => none

/-- Parse the elements of a JSON array (input starts after the `[`). -/
def parseElems : Nat → List Char → List JsonVal → Option (JsonVal × List Char)
  | 0, _, _ => none
  | fuel + 1, cs, acc =>
    match parseVal fuel cs with
    | none => none
    | some (v, r) =>
      match skipWs r with
      | ',' :: r2 => parseElems fuel r2 (v :: acc)
      | ']' :: r2 => some (.arr (v :: acc).reverse, r2)
      | _ => none

end

/-- Model of `JSON.parse` as a total function: `some v` on success, `none`
where `JSON.parse` throws a `SyntaxError`. -/
def jsonParse (s : String) : Option JsonVal :=
  match parseVal (2 * s.length + 8) s.data with
  | some (v, rest) => if skipWs rest = [] then some v else none
  | none => none


/-! ## JavaScript value semantics used by the handlers -/

/-- Whether a JSON number literal denotes zero (its mantissa digits are all 0). -/
def numIsZero (raw : String) : Bool :=
  ((raw.data.takeWhile (fun c => c ≠ 'e' ∧ c ≠ 'E')).filter Char.isDigit).all (· = '0')

/-- JavaScript falsiness of a JSON value. -/
def jsFalsy : JsonVal → Bool
  | .null => true
  | .bool b => !b
  | .num raw => numIsZero raw
  | .str s => s = ""
  | .arr _ => false
  | .obj _ => false

/-- JavaScript truthiness. -/
def jsTruthy (v : JsonVal) : Bool := !jsFalsy v

mutual

/-- JavaScript `String(v)` coercion of a JSON value (numbers keep their
source text, see header note). -/
def jsToString : JsonVal → String
  | .null => "null"
  | .bool true => "true"
  | .bool false => "false"
  | .num raw => raw
  | .str s => s
  | .arr xs => String.intercalate "," (jsArrParts xs)
  | .obj _ => "[object Object]"

/-- Element strings of `Array.prototype.toString` (null/undefined become empty). -/
def jsArrParts : List JsonVal → List String
  | [] => []
  | .null :: rest => "" :: jsArrParts rest
  | v :: rest => jsToString v :: jsArrParts rest

end

/-- Hex digit character (lower case). -/
def hexChar (n : Nat) : Char := if n < 10 then Char.ofNat (48 + n) else Char.ofNat (87 + n)

/-- Two-digit hex rendering of a byte. -/
def hexByte (n : Nat) : String := String.mk [hexChar (n / 16), hexChar (n % 16)]

/-- `JSON.stringify` escaping of one character inside a string literal. -/
def jsonQuoteChar (c : Char) : String :=
  if c = '"' then "\\\""
  else if c = '\\' then "\\\\"
  else if c = '\n' then "\\n"
  else if c = '\r' then "\\r"
  else if c = '\t' then "\\t"
  else if c.toNat = 8 then "\\b"
  else if c.toNat = 12 then "\\f"
  else if c.toNat < 32 then "\\u00" ++ hexByte c.toNat
  else String.mk [c]

/-- `JSON.stringify` of a string. -/
def jsonQuote (s : String) : String :=
  "\"" ++ String.join (s.data.map jsonQuoteChar) ++ "\""

mutual

/-- Model of `JSON.stringify` on JSON values. -/
def jsonStringify : JsonVal → String
  | .null => "null"
  | .bool true => "true"
  | .bool false => "false"
  | .num raw => raw
  | .str s => jsonQuote s
  | .arr xs => "[" ++ String.intercalate "," (stringifyElems xs) ++ "]"
  | .obj fs => "\x7b" ++ String.intercalate "," (stringifyFields fs) ++ "\x7d"

/-- Serialised array elements. -/
def stringifyElems : List JsonVal → List String
  | [] => []
  | v :: rest => jsonStringify v :: stringifyElems rest

/-- Serialised object members. -/
def stringifyFields : List (String × JsonVal) → List String
  | [] => []
  | (k, v) :: rest => (jsonQuote k ++ ":" ++ jsonStringify v) :: stringifyFields rest

end

/-- JavaScript property access `v.k` (`none` models `undefined`); access on a
primitive yields `undefined`, and the callers guard the `null` case with `?.`. -/
def jsGet (v : JsonVal) (k : String) : Option JsonVal :=
  match v with
  | .obj fs => lookupField fs k
  | _ => none

/-- JavaScript indexed access `v[i]` (arrays, objects with numeric keys, strings). -/
def jsIndex (v : JsonVal) (i : Nat) : Option JsonVal :=
  match v with
  | .arr xs => xs.get? i
  | .obj fs => lookupField fs (toString i)
  | .str s => (s.data.get? i).map (fun c => .str (String.mk [c]))
  | _ => none

/-- Collapse `null` to `undefined`: the test done by `?.` and `??`. -/
def nnull : Option JsonVal → Option JsonVal
  | some .null => none
  | x => x

/-- Optional-chained property access `x?.k`. -/
def optChainGet (x : Option JsonVal) (k : String) : Option JsonVal :=
  match nnull x with
  | none => none
  | some v => jsGet v k

/-- Optional-chained indexed access `x?.[i]`. -/
def optChainIndex (x : Option JsonVal) (i : Nat) : Option JsonVal :=
  match nnull x with
  | none => none
  | some v => jsIndex v i

/-- JavaScript `x || d` where `x` may be `undefined` (`none`). -/
def jsOrOpt (x : Option JsonVal) (d : JsonVal) : JsonVal :=
  match x with
  | some v => if jsTruthy v then v else d
  | none => d

/-- Keep a value only if it is defined and truthy (the test of a `||` chain). -/
def jsTruthyOpt (x : Option JsonVal) : Option JsonVal :=
  match x with
  | some v => if jsTruthy v then some v else none
  | none => none

/-- JavaScript `Object.entries`. -/
def jsEntries (v : JsonVal) : List (String × JsonVal) :=
  match v with
  | .obj fs => fs
  | .arr xs => xs.enum.map (fun p => (toString p.1, p.2))
  | .str s => s.data.enum.map (fun p => (toString p.1, JsonVal.str (String.mk [p.2])))
  | _ => []

/-! ## `app/functions/api/mvp.ts` — the Pages `/mvp` function

The handler body of `onRequestPost`, from the point where the request body
has been read, as a function of the request's `idea` field, the presence of
the `OPENAI_API_KEY` binding, and the observed OpenAI HTTP response. -/

/-- The `ORCH` constant of `app/functions/api/mvp.ts`. -/
def ORCH : String := "https://launchwing-orchestrator.promptpulse.workers.dev"

/-- Text of the PROXY_WORKER_JS template literal before the interpolated ORCH constant (app/functions/api/mvp.ts). -/
def PW_PRE : String :=
  "export default \x7b\n    async fetch(req, env) \x7b\n      const url = new URL(req.url);\n      cons" ++
  "t ORCH = \""

/-- Text of the PROXY_WORKER_JS template literal after the interpolated ORCH constant. -/
def PW_POST : String :=
  "\";\n      const isApi =\n        url.pathname === \"/api\" ||\n        url.pathname.startsWith(\"/a" ++
  "pi/\") ||\n        url.pathname === \"/mvp\" ||\n        url.pathname === \"/health\" ||\n        ur" ++
  "l.pathname === \"/github-export\" ||\n        url.pathname === \"/sandbox-deploy\";\n\n      if (isA" ++
  "pi && req.method === \"OPTIONS\") \x7b\n        return new Response(null, \x7b\n          status: 20" ++
  "4,\n          headers: \x7b\n            \"Access-Control-Allow-Origin\": \"*\",\n            \"Acce" ++
  "ss-Control-Allow-Methods\": \"GET,POST,OPTIONS\",\n            \"Access-Control-Allow-Headers\": \"C" ++
  "ontent-Type, Authorization, X-Requested-With\",\n            \"Vary\": \"Origin\"\n          \x7d\n " ++
  "       \x7d);\n      \x7d\n\n      if (isApi) \x7b\n        const path =\n          url.pathname ===" ++
  " \"/api\" ? \"/\" :\n          url.pathname.startsWith(\"/api/\") ? url.pathname.slice(4) :\n       " ++
  "   url.pathname;\n\n        const upstream = new URL(path + url.search, ORCH);\n        const init =" ++
  " \x7b\n          method: req.method,\n          headers: req.headers,\n          body: (req.method =" ++
  "== \"GET\" || req.method === \"HEAD\") ? undefined : req.body,\n          redirect: \"manual\"\n    " ++
  "    \x7d;\n        const r = await fetch(upstream.toString(), init);\n        const h = new Headers(" ++
  "r.headers);\n        h.set(\"x-lw-proxy\", \"app\");\n        h.set(\"Access-Control-Allow-Origin\"," ++
  " \"*\");\n        h.set(\"Access-Control-Allow-Methods\", \"GET,POST,OPTIONS\");\n        h.set(\"Ac" ++
  "cess-Control-Allow-Headers\", \"Content-Type, Authorization, X-Requested-With\");\n        h.set(\"V" ++
  "ary\", \"Origin\");\n        return new Response(r.body, \x7b status: r.status, statusText: r.status" ++
  "Text, headers: h \x7d);\n      \x7d\n\n      // Static + SPA fallback\n      let res = await env.ASS" ++
  "ETS.fetch(req);\n      if (res.status === 404 && req.method === \"GET\" && !(url.pathname.startsWith" ++
  "(\"/_\"))) \x7b\n        const indexReq = new Request(new URL(\"/index.html\", url.origin), \x7b hea" ++
  "ders: req.headers \x7d);\n        res = await env.ASSETS.fetch(indexReq);\n      \x7d\n      return " ++
  "res;\n    \x7d\n  \x7d;"

/-- synthIndexHTML template text before the first interpolated title. -/
def SYNTH_PRE : String :=
  "<!doctype html>\n<html>\n  <head>\n    <meta charset=\"utf-8\" />\n    <meta name=\"viewport\" conte" ++
  "nt=\"width=device-width, initial-scale=1\" />\n    <title>"

/-- synthIndexHTML template text between the two interpolated titles. -/
def SYNTH_MID : String :=
  "</title>\n    <style>\n      body \x7b font-family: system-ui, -apple-system, Segoe UI, Roboto, sans" ++
  "-serif; margin: 2rem; line-height: 1.4; \x7d\n      input, button, textarea \x7b font: inherit; padd" ++
  "ing: .5rem .6rem; \x7d\n      .row \x7b display: flex; gap: .5rem; align-items: center; \x7d\n      " ++
  ".log \x7b margin-top: 1rem; white-space: pre-wrap; background: #f6f6f9; padding: .75rem; border-radi" ++
  "us: .5rem; \x7d\n      a \x7b color: inherit; \x7d\n    </style>\n  </head>\n  <body>\n    <h1>"

/-- synthIndexHTML template text after the second interpolated title. -/
def SYNTH_POST : String :=
  "</h1>\n    <p>This sandbox hits <code>/api/health</code> and <code>/api/echo</code> via the app\x27s" ++
  " <code>_worker.js</code> proxy.</p>\n\n    <div class=\"row\">\n      <input id=\"msg\" placeholder=" ++
  "\"Type a message...\" value=\"hello\" />\n      <button id=\"btnEcho\">Echo</button>\n      <button " ++
  "id=\"btnHealth\">Health</button>\n    </div>\n\n    <div class=\"log\" id=\"log\">Ready.</div>\n\n  " ++
  "  <script>\n      const log = (t) => \x7b document.getElementById(\x27log\x27).textContent = t; \x7d" ++
  ";\n      document.getElementById(\x27btnEcho\x27).onclick = async () => \x7b\n        try \x7b\n    " ++
  "      log(\x27POST /api/echo ...\x27);\n          const msg = document.getElementById(\x27msg\x27).v" ++
  "alue || \x27hello\x27;\n          const r = await fetch(\x27/api/echo\x27, \x7b\n            method:" ++
  " \x27POST\x27,\n            headers: \x7b\x27content-type\x27:\x27application/json\x27\x7d,\n       " ++
  "     body: JSON.stringify(\x7b message: msg \x7d)\n          \x7d);\n          log(\x27Echo \u2192 " ++
  "\x27 + (await r.text()));\n        \x7d catch (e) \x7b log(\x27Echo error: \x27 + e); \x7d\n      " ++
  "\x7d;\n      document.getElementById(\x27btnHealth\x27).onclick = async () => \x7b\n        try \x7b" ++
  "\n          log(\x27GET /api/health ...\x27);\n          const r = await fetch(\x27/api/health\x27);" ++
  "\n          log(\x27Health \u2192 \x27 + (await r.text()));\n        \x7d catch (e) \x7b log(\x27Hea" ++
  "lth error: \x27 + e); \x7d\n      \x7d;\n    </script>\n  </body>\n</html>"

/-- The `PROXY_WORKER_JS` template literal (its only interpolation is `ORCH`). -/
def PROXY_WORKER_JS : String := PW_PRE ++ ORCH ++ PW_POST

/-- `escapeHtml` of `app/functions/api/mvp.ts`: three global replaces of
`&`, `<`, `>`; applied in sequence they amount to this per-character map. -/
def escapeHtml (s : String) : String :=
  String.join (s.data.map fun c =>
    if c = '&' then "&amp;"
    else if c = '<' then "&lt;"
    else if c = '>' then "&gt;"
    else String.mk [c])

/-- The `title` computed by `synthIndexHTML`: `escapeHtml(ir?.name || "LaunchWing App")`
(`escapeHtml` stringifies its argument via `String(s || "")`). -/
def synthTitle (ir : JsonVal) : String :=
  escapeHtml (jsToString (jsOrOpt (optChainGet (some ir) "name") (.str "LaunchWing App")))

/-- `synthIndexHTML` of `app/functions/api/mvp.ts`: the literal template with
the title interpolated twice. -/
def synthIndexHTML (ir : JsonVal) : String :=
  SYNTH_PRE ++ synthTitle ir ++ SYNTH_MID ++ synthTitle ir ++ SYNTH_POST

/-- `MAX_FILES` of the guardrail block. -/
def MAX_FILES : Nat := 50

/-- `MAX_BYTES` of the guardrail block. -/
def MAX_BYTES : Nat := 300000

/-- `String(p0 || "").replace(/^\/+/, "")`: the path sanitisation of the loop. -/
def stripLeadingSlashes (p : String) : String :=
  String.mk (p.data.dropWhile (· = '/'))

/-- `String(c0 ?? "")`: the content coercion of the loop. -/
def coerceContent : JsonVal → String
  | .null => ""
  | v => jsToString v

/-- One entry as stored by the loop: sanitised path, coerced content. -/
def sanitizeEntry (e : String × JsonVal) : String × String :=
  (stripLeadingSlashes e.1, coerceContent e.2)

/-- The `for (const [p0, c0] of Object.entries(result.files))` guardrail loop:
`out`, `total` and `n` are the loop state (`out` accumulates reversed); the
loop `break`s when the file cap is reached or the next file would exceed the
byte cap. -/
def limitLoop : List (String × String) → List (String × String) → Nat → Nat →
    List (String × String)
  | [], out, _, _ => out.reverse
  | (p, c) :: rest, out, total, n =>
    if MAX_FILES ≤ n then out.reverse
    else
      let sz := utf8Len c
      if MAX_BYTES < total + sz then out.reverse
      else limitLoop rest ((p, c) :: out) (total + sz) (n + 1)

/-- The guardrail loop applied to the entries of `result.files`.  (The code
sanitises each entry inside the loop; sanitisation is per-entry, so mapping
first and looping after processes the same prefix.  Collisions of sanitised
paths would overwrite in the JS object; the model keeps the pair list.) -/
def enforceLimits (files : List (String × JsonVal)) : List (String × String) :=
  limitLoop (files.map sanitizeEntry) [] 0 0

/-- Whether the bundle already has the given file name. -/
def hasFileKey (key : String) (files : List (String × String)) : Bool :=
  files.any (fun e => e.1 = key)

/-- The `_worker.js` injection that follows the guardrail loop: if neither
`_worker.js` nor `_worker.ts` survived, the proxy worker is added. -/
def injectWorker (out : List (String × String)) : List (String × String) :=
  if !hasFileKey "_worker.js" out && !hasFileKey "_worker.ts" out then
    out ++ [("_worker.js", PROXY_WORKER_JS)]
  else out

/-- Guardrail loop followed by worker injection: exactly what the handler does
to `result.files` before placing it in the response. -/
def applyGuardrails (files : List (String × JsonVal)) : List (String × String) :=
  injectWorker (enforceLimits files)

/-- Sum of the UTF-8 byte sizes of a bundle's contents. -/
def bundleBytes (files : List (String × String)) : Nat :=
  (files.map (fun e => utf8Len e.2)).sum

/-- The observed OpenAI HTTP response (`r.ok`, `r.status`, `await r.text()`). -/
structure OaiHttp where
  ok : Bool
  status : Nat
  raw : String

/-- The handler's outcome: an error response with its HTTP status, or the
success payload (the `ir`, `smoke` and `files` placed in `result`). -/
inductive MvpOut where
  | err (status : Nat) (msg : String)
  | success (ir smoke : JsonVal) (files : List (String × String))
deriving Repr

/-- HTTP status of a handler outcome (success replies are `json(..., 200)`). -/
def MvpOut.status : MvpOut → Nat
  | .err s _ => s
  | .success _ _ _ => 200

/-- Whether the outcome is a success (`ok:true`) response. -/
def MvpOut.isSuccess : MvpOut → Bool
  | .err _ _ => false
  | .success _ _ _ => true

/-- The files of a success outcome. -/
def MvpOut.files : MvpOut → List (String × String)
  | .err _ _ => []
  | .success _ _ fs => fs

/-- `content.find((c) => c.type === "output_text")`: the callback scans the
elements in order and stops at the first match; it reads `c.type`, which
throws a `TypeError` when the scan reaches a `null` element (property access
on any other value, object or primitive, just yields `undefined` and the
strict comparison fails). -/
def findOutputText : List JsonVal → Except String (Option JsonVal)
  | [] => .ok none
  | c :: rest =>
    match c with
    | .null => .error "TypeError: Cannot read properties of null"
    | _ =>
      match jsGet c "type" with
      | some (.str t) => if t = "output_text" then .ok (some c) else findOutputText rest
      | _ => findOutputText rest

/-- `parsed.output?.[0]?.content?.find((c) => c.type === "output_text")?.text?.value
?? parsed.output_text ?? ""` — the payload extraction.  A `TypeError` (thrown
when `parsed` is `null`, when `content` is a defined non-null non-array whose
`.find` is not a function, or by the `find` callback on a `null` element) is
modelled with `Except` and lands in the handler's outer `catch`. -/
def payloadOf (parsed : JsonVal) : Except String JsonVal := do
  if let .null := parsed then
    throw "TypeError: Cannot read properties of null"
  let out0 := optChainIndex (jsGet parsed "output") 0
  let content := optChainGet out0 "content"
  let found : Option JsonVal ←
    match nnull content with
    | none => pure none
    | some (.arr xs) => findOutputText xs
    | some _ => throw "TypeError: content.find is not a function"
  let tv := optChainGet (optChainGet found "text") "value"
  match nnull tv with
  | some v => pure v
  | none =>
    match nnull (jsGet parsed "output_text") with
    | some v => pure v
    | none => pure (.str "")

/-- The `payload.match(/\x7b[\s\S]*\x7d$/)` fallback: the regex matches iff the
string contains a `\x7b` and ends with `\x7d` (with the `\x7b` strictly before
it); the match is the suffix starting at the first `\x7b`. -/
def tailSlice (s : String) : Option String :=
  match firstIdxOf s lbrace with
  | none => none
  | some i =>
    if s.data.getLast? = some rbrace ∧ i + 1 < s.data.length then
      some (String.mk (s.data.drop i))
    else none

/-- The default IR installed by `result.ir ||= ...`. -/
def defaultIR : JsonVal :=
  .obj [("name", .str "Generated App"), ("app_type", .str "spa_api")]

/-- The default smoke record installed by
`result.smoke ||= \x7b passed: true, logs: [] \x7d`. -/
def defaultSmoke : JsonVal := .obj [("passed", .bool true), ("logs", .arr [])]

/-- The synthesis log line pushed onto `result.smoke.logs`. -/
def SYNTH_LOG : String :=
  "Synthesized buildless index.html from IR because only artifacts were provided."

/-- The injection log line pushed onto `result.smoke.logs`. -/
def INJECT_LOG : String := "Injected _worker.js proxy → orchestrator."

/-- `result.smoke.logs.push(msg)`: appends when `logs` is an array (the
object is updated in place, the key keeping its position); any other `logs`
— absent, `null`, or a non-array — has no `push` method, and reading or
calling it throws a `TypeError` (as does `smoke.logs` itself when `smoke`
is a truthy non-object, whose property read yields `undefined`). -/
def smokePush (smoke : JsonVal) (msg : String) : Except String JsonVal :=
  match smoke with
  | .obj sfs =>
    match lookupField sfs "logs" with
    | some (.arr l) => .ok (.obj (objInsert sfs "logs" (.arr (l ++ [.str msg]))))
    | _ => .error "TypeError: result.smoke.logs.push is not a function"
  | _ => .error "TypeError: result.smoke.logs.push is not a function"

/-- `result.ir ||= \x7b name: "Generated App", app_type: "spa_api" \x7d`. -/
def resultIR (fs0 : List (String × JsonVal)) : JsonVal :=
  jsOrOpt (lookupField fs0 "ir") defaultIR

/-- `result.files ||= \x7b\x7d`. -/
def resultFiles (fs0 : List (String × JsonVal)) : JsonVal :=
  jsOrOpt (lookupField fs0 "files") (.obj [])

/-- `result.artifacts ||= \x7b\x7d`. -/
def resultArts (fs0 : List (String × JsonVal)) : JsonVal :=
  jsOrOpt (lookupField fs0 "artifacts") (.obj [])

/-- `result.smoke ||= \x7b passed: true, logs: [] \x7d`. -/
def resultSmoke (fs0 : List (String × JsonVal)) : JsonVal :=
  jsOrOpt (lookupField fs0 "smoke") defaultSmoke

/-- The synthesis step:
`needsSynthesis = Object.keys(result.files).length === 0 &&
Object.keys(result.artifacts).length > 0`; when it holds the handler runs
`result.files["index.html"] = synthIndexHTML(result.ir)` (a strict-mode
`TypeError` when `result.files` is a truthy primitive; an empty array takes
the expando property, which becomes its only entry) and then
`result.smoke.logs.push(SYNTH_LOG)`.  Returns the entries of `result.files`
and the possibly-updated smoke value. -/
def synthStep (fs0 : List (String × JsonVal)) :
    Except String (List (String × JsonVal) × JsonVal) :=
  if (jsEntries (resultFiles fs0)).isEmpty && !(jsEntries (resultArts fs0)).isEmpty then
    match resultFiles fs0 with
    | .obj ffs =>
      match smokePush (resultSmoke fs0) SYNTH_LOG with
      | .ok s => .ok (objInsert ffs "index.html" (.str (synthIndexHTML (resultIR fs0))), s)
      | .error e => .error e
    | .arr _ =>
      match smokePush (resultSmoke fs0) SYNTH_LOG with
      | .ok s => .ok ([("index.html", .str (synthIndexHTML (resultIR fs0)))], s)
      | .error e => .error e
    | _ => .error "TypeError: Cannot create property on a primitive"
  else .ok (jsEntries (resultFiles fs0), resultSmoke fs0)

/-- The normalisation block of the handler on an object `result`:
the `||=` defaults, the synthesis step, the guardrail loop on the entries of
`result.files`, and the `_worker.js` injection — which, when it fires, also
runs `result.smoke.logs.push(INJECT_LOG)`.  The result is the response
`result`'s `ir` and `smoke` together with the final file bundle. -/
def mvpNormalizeFields (fs0 : List (String × JsonVal)) :
    Except String (JsonVal × JsonVal × List (String × String)) :=
  match synthStep fs0 with
  | .error e => .error e
  | .ok es =>
    if !hasFileKey "_worker.js" (enforceLimits es.1) &&
        !hasFileKey "_worker.ts" (enforceLimits es.1) then
      match smokePush es.2 INJECT_LOG with
      | .ok s => .ok (resultIR fs0, s, enforceLimits es.1 ++ [("_worker.js", PROXY_WORKER_JS)])
      | .error e => .error e
    else .ok (resultIR fs0, es.2, enforceLimits es.1)

/-- The normalisation block on an arbitrary parsed `result`.  Strict-mode
property assignment on a primitive `result` throws (modelled as
`Except.error`); arrays accept expando properties, so an array `result`
proceeds with every named field `undefined` — the same as an object with no
fields. -/
def mvpNormalize (result : JsonVal) :
    Except String (JsonVal × JsonVal × List (String × String)) :=
  match result with
  | .obj fs0 => mvpNormalizeFields fs0
  | .arr _ => mvpNormalizeFields []
  | _ => .error "TypeError: Cannot create property on a primitive"

/-- The normalisation outcome as a handler response (a modelled thrown
error reaches the outer `catch`, which replies 500). -/
def finishParse (result : JsonVal) : MvpOut :=
  match mvpNormalize result with
  | .ok p => .success p.1 p.2.1 p.2.2
  | .error e => .err 500 e

/-- `onRequestPost` after a 2xx OpenAI response: envelope parse, payload
extraction, model-output parse with the brace-slice fallback, and
normalisation. -/
def mvpAfterFetch (raw : String) : MvpOut :=
  match jsonParse raw with
  | none => .err 502 "Malformed JSON from OpenAI"
  | some parsed =>
    match payloadOf parsed with
    | .error e => .err 500 e
    | .ok payload =>
      if jsFalsy payload then .err 502 "Empty model output"
      else
        match jsonParse (jsToString payload) with
        | some result => finishParse result
        | none =>
          match payload with
          | .str ps =>
            match tailSlice ps with
            | none => .err 502 "Could not parse JSON from model output"
            | some sl =>
              match jsonParse sl with
              | some result => finishParse result
              | none => .err 500 "SyntaxError: Unexpected token in JSON"
          | _ => .err 500 "TypeError: payload.match is not a function"

/-- `onRequestPost` of `app/functions/api/mvp.ts` from the point where the
request body has been parsed (`idea0` is `body?.idea || ""`): validation,
then the OpenAI call (observed response `oai`) and its processing. -/
def onRequestPost (idea0 : String) (hasApiKey : Bool) (oai : OaiHttp) : MvpOut :=
  let idea := jsTrim idea0
  if idea = "" then .err 400 "Missing idea"
  else if !hasApiKey then .err 500 "Missing OPENAI_API_KEY"
  else if !oai.ok then .err 502 ("OpenAI HTTP " ++ toString oai.status ++ " — " ++ oai.raw)
  else mvpAfterFetch oai.raw

/-! ## `src/utils/github.ts` — GitHub export helpers -/

/-- Base64 alphabet. -/
def b64Char (n : Nat) : Char :=
  if n < 26 then Char.ofNat (65 + n)
  else if n < 52 then Char.ofNat (97 + (n - 26))
  else if n < 62 then Char.ofNat (48 + (n - 52))
  else if n = 62 then '+'
  else '/'

/-- Base64 encoding of a byte list (with padding). -/
def b64Encode : List Nat → List Char
  | b1 :: b2 :: b3 :: rest =>
    b64Char (b1 / 4) :: b64Char ((b1 % 4) * 16 + b2 / 16) ::
    b64Char ((b2 % 16) * 4 + b3 / 64) :: b64Char (b3 % 64) :: b64Encode rest
  | [b1, b2] =>
    [b64Char (b1 / 4), b64Char ((b1 % 4) * 16 + b2 / 16), b64Char ((b2 % 16) * 4), '=']
  | [b1] => [b64Char (b1 / 4), b64Char ((b1 % 4) * 16), '=', '=']
  | [] => []

/-- `b64` of `src/utils/github.ts`: `btoa(unescape(encodeURIComponent(s)))`,
i.e. base64 of the UTF-8 bytes of `s`. -/
def b64 (s : String) : String :=
  String.mk (b64Encode (s.toUTF8.toList.map UInt8.toNat))

/-- The GitHub-relevant environment: presence of `GITHUB_TOKEN` / `GITHUB_ORG`
(`assertEnv` throws on a falsy value) and the org name. -/
structure GhEnv where
  hasToken : Bool
  hasOrg : Bool
  org : String

/-- Observed responses of the two requests `ensureRepo` can make:
the `GET /repos/:org/:repo` probe and the `POST /orgs/:org/repos` creation. -/
structure RepoOracle where
  getStatus : Nat
  getBody : JsonVal
  createOk : Bool
  createStatus : Nat
  createText : String
  createBody : JsonVal

/-- `ensureRepo` of `src/utils/github.ts`: return the GET body when the probe
answers 200; otherwise create, throwing on a non-ok creation response. -/
def ensureRepo (env : GhEnv) (o : RepoOracle) : Except String JsonVal :=
  if !env.hasToken then .error "Missing env: GITHUB_TOKEN"
  else if !env.hasOrg then .error "Missing env: GITHUB_ORG"
  else if o.getStatus = 200 then .ok o.getBody
  else if !o.createOk then
    .error ("GitHub create repo failed: " ++ toString o.createStatus ++ " " ++ o.createText)
  else .ok o.createBody

/-- Observed responses of the per-file GET (current contents) and PUT
(create-or-update) of the contents API, per path. -/
structure FileOracle where
  getStatus : Nat
  getBody : JsonVal
  putOk : Bool
  putStatus : Nat

/-- One PUT request as issued by the loop: path, commit message, base64
content, and the `sha` field included in its JSON body (absent — and hence
omitted by `JSON.stringify` — unless the preceding GET answered 200). -/
structure PutCall where
  path : String
  message : String
  content : String
  sha : Option JsonVal
deriving Repr

/-- The `sha` fetched immediately before a PUT: `j.sha` of the GET body when
the GET answered 200, otherwise `undefined`. -/
def shaOf (o : FileOracle) : Option JsonVal :=
  if o.getStatus = 200 then jsGet o.getBody "sha" else none

/-- The PUT the loop issues for one entry. -/
def mkPut (oracle : String → FileOracle) (message : String) (e : String × String) : PutCall :=
  ⟨e.1, message, b64 e.2, shaOf (oracle e.1)⟩

/-- The `for (const [path, content] of entries)` loop of
`pushFilesWithContentsAPI`: returns the successfully pushed PUTs in order,
and the thrown error message if some PUT failed (the loop throws at the first
failure; later entries are not attempted). -/
def pushLoop (oracle : String → FileOracle) (message : String) :
    List (String × String) → List PutCall × Option String
  | [] => ([], none)
  | e :: rest =>
    let o := oracle e.1
    if o.putOk then
      let r := pushLoop oracle message rest
      (mkPut oracle message e :: r.1, r.2)
    else ([], some ("GitHub push failed for " ++ e.1 ++ ": " ++ toString o.putStatus))

/-- `pushFilesWithContentsAPI` of `src/utils/github.ts`: env assertions, the
per-file loop, then the repository URL. -/
def pushFilesWithContentsAPI (env : GhEnv) (repo : String)
    (files : List (String × String)) (message : String)
    (oracle : String → FileOracle) : Except String String :=
  if !env.hasToken then .error "Missing env: GITHUB_TOKEN"
  else if !env.hasOrg then .error "Missing env: GITHUB_ORG"
  else
    match (pushLoop oracle message files).2 with
    | some e => .error e
    | none => .ok ("https://github.com/" ++ env.org ++ "/" ++ repo)

/-- Index of the first entry whose PUT fails (`files.length` if none). -/
def firstPutFail (oracle : String → FileOracle) (files : List (String × String)) : Nat :=
  files.findIdx (fun e => !(oracle e.1).putOk)

/-! ## `src/api/mvp.ts` — the worker `/mvp` handler -/

/-- One element of the inner `p.content.map((c) => c.text || "")`: reading
`.text` on a `null` element throws a `TypeError`; on any other value it
yields the field (objects) or `undefined` (primitives), a falsy result
contributes `""`, and a truthy one is coerced to a string by `join`. -/
def contentPartText (c : JsonVal) : Except String String :=
  match c with
  | .null => .error "TypeError: Cannot read properties of null"
  | .obj cfs =>
    match lookupField cfs "text" with
    | some v => .ok (if jsFalsy v then "" else jsToString v)
    | none => .ok ""
  | _ => .ok ""

/-- The inner `p.content.map((c) => c.text || "").join("")`, stopping at the
first element whose mapping throws. -/
def contentParts : List JsonVal → Except String String
  | [] => .ok ""
  | c :: rest =>
    match contentPartText c with
    | .error e => .error e
    | .ok s =>
      match contentParts rest with
      | .error e => .error e
      | .ok t => .ok (s ++ t)

/-- `extractOutputText`'s mapping of one element of `j.output`: reading
`p.text` on a `null` element throws a `TypeError`; a string `text` is
returned, else an array `content` is joined, else `""`. -/
def partText (p : JsonVal) : Except String String :=
  match p with
  | .null => .error "TypeError: Cannot read properties of null"
  | .obj pfs =>
    match lookupField pfs "text" with
    | some (.str s) => .ok s
    | _ =>
      match lookupField pfs "content" with
      | some (.arr cs) => contentParts cs
      | _ => .ok ""
  | _ => .ok ""

/-- The outer `j.output.map((p) => ...).join("")`, stopping at the first
element whose mapping throws. -/
def partsText : List JsonVal → Except String String
  | [] => .ok ""
  | p :: rest =>
    match partText p with
    | .error e => .error e
    | .ok s =>
      match partsText rest with
      | .error e => .error e
      | .ok t => .ok (s ++ t)

/-- The final fallback of `extractOutputText`:
`typeof j === "string" ? j : JSON.stringify(j)`. -/
def finalFallback (j : JsonVal) : JsonVal :=
  match j with
  | .str s => .str s
  | _ => .str (jsonStringify j)

/-- The two final early-returns of `extractOutputText`:
`if (Array.isArray(j.content) && j.content[0]?.text) return j.content[0].text`
followed by the final fallback. -/
def contentFallback (j : JsonVal) : JsonVal :=
  match jsGet j "content" with
  | some (.arr (c0 :: _)) =>
    match optChainGet (some c0) "text" with
    | some t => if jsTruthy t then t else finalFallback j
    | none => finalFallback j
  | _ => finalFallback j

/-- `extractOutputText` of `src/api/mvp.ts`.  The scan of `j.output` (and of
a `p.content` within it) throws a `TypeError` on a `null` element, modelled
with `Except`; otherwise the result is the JavaScript value the function
returns: every branch returns a string except `return j.content[0].text`,
which returns that field verbatim (the code only checks it for truthiness,
through optional chaining, so that branch cannot throw). -/
def extractOutputText (j : JsonVal) : Except String JsonVal :=
  if jsFalsy j then .ok (.str "")
  else
    match jsGet j "output_text" with
    | some (.str s) => .ok (.str s)
    | _ =>
      match jsGet j "output" with
      | some (.arr ps) =>
        match partsText ps with
        | .error e => .error e
        | .ok parts => if parts ≠ "" then .ok (.str parts) else .ok (contentFallback j)
      | _ => .ok (contentFallback j)

/-- `safeParseJson` of `src/api/mvp.ts` on a string: strict parse of the
trimmed input, else parse of the slice from the first `\x7b` to the last
`\x7d`, else `null` (`none`). -/
def safeParseJson (raw : String) : Option JsonVal :=
  let s := jsTrim raw
  if s = "" then none
  else
    match jsonParse s with
    | some v => some v
    | none =>
      match firstIdxOf s lbrace, lastIdxOf s rbrace with
      | some a, some b =>
        if a < b then jsonParse (String.mk ((s.data.drop a).take (b + 1 - a)))
        else none
      | _, _ => none

/-- `safeParseJson` as applied to the value `extractOutputText` returned:
`raw?.trim()` only guards `null`/`undefined`, so a non-string non-null
argument throws a `TypeError`. -/
def safeParseJsonJS : JsonVal → Except String (Option JsonVal)
  | .str s => .ok (safeParseJson s)
  | .null => .ok none
  | _ => .error "TypeError: raw.trim is not a function"

/-- The result record `callOpenAI` resolves with. -/
structure MvpAgentResult where
  ir : JsonVal
  files : JsonVal
  smokePassed : Bool
  smokeLogs : List String
deriving Repr

/-- `callOpenAI` of `src/api/mvp.ts` from the observed OpenAI response on:
env assertion, upstream-error throw, output-text extraction, tolerant parse,
and the fallback IR (`name` from the idea, `app_type` "spa") with an empty
file map when parsing yielded nothing. -/
def callOpenAI (hasKey : Bool) (resOk : Bool) (resStatus : Nat) (resText : String)
    (j : JsonVal) (ideaField : String) : Except String MvpAgentResult :=
  if !hasKey then .error "Missing env: OPENAI_API_KEY"
  else if !resOk then
    .error ("OpenAI " ++ toString resStatus ++ ": " ++ String.mk (resText.data.take 400))
  else do
    let text ← extractOutputText j
    let parsed ← safeParseJsonJS text
    let defName := String.mk ((if ideaField = "" then "launchwing-app" else ideaField).data.take 24)
    let defIR : JsonVal := .obj [("name", .str defName), ("app_type", .str "spa")]
    let ir := jsOrOpt (parsed.bind (jsGet · "ir")) defIR
    let files := jsOrOpt (parsed.bind (jsGet · "files")) (.obj [])
    pure ⟨ir, files, true, []⟩

/-- `\w` of JavaScript regexes: `[A-Za-z0-9_]`. -/
def isWordChar (c : Char) : Bool :=
  ('A' ≤ c && c ≤ 'Z') || ('a' ≤ c && c ≤ 'z') || ('0' ≤ c && c ≤ '9') || c = '_'

/-- The app name of `mvpHandler`:
`(agent.ir?.name || "app-" + tag).replace(/[^\w-]/g, "-").toLowerCase()`.
A truthy non-string `ir.name` has no `.replace` and throws. -/
def appNameOf (ir : JsonVal) (tag : String) : Except String String :=
  match jsOrOpt (optChainGet (some ir) "name") (.str ("app-" ++ tag)) with
  | .str s =>
    .ok (strToLower (String.mk (s.data.map fun c =>
      if isWordChar c || c = '-' then c else '-')))
  | _ => .error "TypeError: replace is not a function"

/-- The success payload of the non-streaming `mvpHandler` path. -/
structure MvpHandlerOk where
  status : Nat
  ok : Bool
  repoUrl : String
  repoName : String
  ir : JsonVal
deriving Repr

/-- The non-streaming path of `mvpHandler` (`src/api/mvp.ts`): the idea field
(`input.idea || "(no idea provided)"` feeds only the commit message),
`callOpenAI`, app-name derivation, `sanitizeGeneratedFiles` (not part of the
source dump; its behaviour is irrelevant to every claim and it is therefore a
parameter), `ensureRepo` and `pushFilesWithContentsAPI`.  Thrown errors
propagate to the router (no try/catch on this path). -/
def mvpHandler (inputIdea : String) (hasOaiKey resOk : Bool) (resStatus : Nat)
    (resText : String) (oaiJson : JsonVal) (tag : String)
    (sanitize : JsonVal → String → List (String × String))
    (ghEnv : GhEnv) (repoOracle : RepoOracle) (fileOracle : String → FileOracle) :
    Except String MvpHandlerOk := do
  let ideaVar := if inputIdea = "" then "(no idea provided)" else inputIdea
  let agent ← callOpenAI hasOaiKey resOk resStatus resText oaiJson inputIdea
  let appName ← appNameOf agent.ir tag
  let files := sanitize (jsOrOpt (some agent.files) (.obj [])) appName
  let repoName := appName
  let _ ← ensureRepo ghEnv repoOracle
  let message := "Initial commit for " ++ appName ++ " (idea: " ++
    String.mk (ideaVar.data.take 80) ++ ")"
  let repoUrl ← pushFilesWithContentsAPI ghEnv repoName files message fileOracle
  pure ⟨200, true, repoUrl, repoName, agent.ir⟩

/-! ## `src/utils/cloudflare.ts` (second revision) — Services API deploy -/

/-- Characters `encodeURIComponent` leaves unescaped. -/
def isUriUnreserved (c : Char) : Bool :=
  ('A' ≤ c && c ≤ 'Z') || ('a' ≤ c && c ≤ 'z') || ('0' ≤ c && c ≤ '9') ||
  c = '-' || c = '_' || c = '.' || c = '!' || c = '~' || c = '*' ||
  c = Char.ofNat 39 || c = '(' || c = ')'

/-- Uppercase hex digit. -/
def hexCharUp (n : Nat) : Char := if n < 10 then Char.ofNat (48 + n) else Char.ofNat (55 + n)

/-- Percent-encoding of one byte. -/
def pctByte (n : Nat) : String :=
  String.mk ['%', hexCharUp (n / 16), hexCharUp (n % 16)]

/-- `encodeURIComponent`: unreserved characters kept, everything else
percent-encoded per UTF-8 byte. -/
def encodeURIComponent (s : String) : String :=
  String.join (s.data.map fun c =>
    if isUriUnreserved c then String.mk [c]
    else String.join ((String.mk [c]).toUTF8.toList.map fun b => pctByte b.toNat))

/-- An observed Cloudflare API response (`cf` returns
`\x7b ok, status, json, raw \x7d`; `json` is `\x7b\x7d` when the body does not parse). -/
structure CfResp where
  ok : Bool
  status : Nat
  json : JsonVal
  raw : String

/-- `errMsg` of `src/utils/cloudflare.ts`:
`r.json?.errors?.[0]?.message || r.json?.messages?.[0]?.message || fallback (status) :: raw.slice(0,200)`. -/
def cfErrMsg (r : CfResp) (fallback : String) : String :=
  let path := fun (key : String) =>
    jsTruthyOpt (optChainGet (optChainIndex (optChainGet (some r.json) key) 0) "message")
  match path "errors" with
  | some v => jsToString v
  | none =>
    match path "messages" with
    | some v => jsToString v
    | none =>
      fallback ++ " (" ++ toString r.status ++ ") :: " ++ String.mk (r.raw.data.take 200)

/-- The environment bindings `uploadModuleWorker` reads (a present entry is a
non-empty, hence truthy, variable). -/
structure CfEnvLike where
  apiToken : Option String
  accountId : Option String
  subdomain : Option String
  email : Option String
  apiKey : Option String

/-- `authMode`: global key wins over API token. -/
def cfAuthMode (env : CfEnvLike) : String :=
  if env.email.isSome && env.apiKey.isSome then "global-key"
  else if env.apiToken.isSome then "api-token"
  else "none"

/-- One iteration of the readiness poll: the observed health-path response and
root-path response (`none` models a thrown `fetch`).  Both probes share one
`try`, so a throwing health probe skips the root probe of that iteration. -/
structure Attempt where
  health : Option CfResp
  root : Option CfResp
  rootContentType : String
  rootBody : String

/-- `okish` of `waitForReadiness`: 2xx or 302. -/
def okish (s : Nat) : Bool :=
  (200 ≤ s && s < 300) || s = 302

/-- The Cloudflare placeholder test `/There is nothing here yet/i`. -/
def isPlaceholder (body : String) : Bool :=
  containsCI body "There is nothing here yet"

/-- One iteration of `waitForReadiness`: health `okish` is ready; otherwise a
root response is ready when `okish` and either not HTML or not the
placeholder page. -/
def attemptReady (a : Attempt) : Bool :=
  match a.health with
  | none => false
  | some h =>
    if okish h.status then true
    else
      match a.root with
      | none => false
      | some r =>
        if okish r.status then
          if !(strContains a.rootContentType "text/html") then true
          else !(isPlaceholder a.rootBody)
        else false

/-- The `for (let i = 0; i < 30; i++)` loop of `waitForReadiness`; a missing
trace entry behaves like a thrown fetch. -/
def readinessLoop : Nat → List Attempt → Bool
  | 0, _ => false
  | _ + 1, [] => false
  | n + 1, a :: rest => if attemptReady a then true else readinessLoop n rest

/-- `waitForReadiness` of `src/utils/cloudflare.ts` (second revision):
up to 30 attempts, ~6s apart. -/
def waitForReadiness (attempts : List Attempt) : Bool :=
  readinessLoop 30 attempts

/-- The deploy result record of `src/utils/cloudflare.ts` (second revision). -/
structure DeployResult where
  ok : Bool
  name : Option String
  url : Option String
  error : Option String
  status : Option Nat
  endpoint : Option String
  diagnostics : Option JsonVal
deriving Repr

/-- Observed responses of the requests `uploadModuleWorker` makes, in order:
service creation (PUT), script upload, settings PATCH, settings verify GET,
the readiness-poll probes, and the settings snapshot taken on a failed poll. -/
structure CfOracle where
  createResp : CfResp
  uploadResp : CfResp
  patchResp : CfResp
  verifyResp : CfResp
  attempts : List Attempt
  snapshotResp : CfResp

/-- `uploadModuleWorker` of `src/utils/cloudflare.ts` (second revision):
ensure service (PUT, 409 tolerated), upload module, enable + verify
workers.dev, then compute the workers.dev URL and poll readiness; a failed
poll reports `ok:false` with the URL still present.  A missing auth
configuration throws out of the function (`authHeaders`). -/
def uploadModuleWorker (serviceName : String) (_code : String) (env : CfEnvLike)
    (o : CfOracle) : Except String DeployResult :=
  match env.accountId with
  | none => .ok ⟨false, none, none, some "Missing CLOUDFLARE_ACCOUNT_ID", none, none, none⟩
  | some accountId =>
    let auth := cfAuthMode env
    if auth = "none" then
      .error "Missing Cloudflare auth. Provide CLOUDFLARE_EMAIL + CLOUDFLARE_API_KEY or CLOUDFLARE_API_TOKEN."
    else
      let diag : JsonVal := .obj [("auth", .str auth)]
      let base := "https://api.cloudflare.com/client/v4/accounts/" ++ accountId ++
        "/workers/services/" ++ encodeURIComponent serviceName
      let r1 := o.createResp
      if !r1.ok && r1.status ≠ 409 then
        .ok ⟨false, none, none, some (cfErrMsg r1 "Create service failed"),
          some r1.status, some base, some diag⟩
      else
        let upUrl := base ++ "/environments/production/script"
        let r2 := o.uploadResp
        if !r2.ok then
          .ok ⟨false, none, none, some (cfErrMsg r2 "Upload script failed"),
            some r2.status, some upUrl, some diag⟩
        else
          let setUrl := base ++ "/environments/production/settings"
          let r3 := o.patchResp
          if !r3.ok then
            .ok ⟨false, none, none, some (cfErrMsg r3 "Enable workers_dev failed"),
              some r3.status, some setUrl, some diag⟩
          else
            let verify := o.verifyResp
            let enabled :=
              (match optChainGet (optChainGet (some verify.json) "result") "workers_dev" with
               | some v => jsTruthy v
               | none => false) ||
              (match jsGet verify.json "workers_dev" with
               | some (.bool true) => true
               | _ => false)
            if !verify.ok || !enabled then
              .ok ⟨false, none, none, some "workers.dev appears disabled after PATCH",
                some verify.status, some setUrl,
                some (.obj [("auth", .str auth), ("settings", verify.json)])⟩
            else
              match env.subdomain with
              | some sd =>
                let url := "https://" ++ serviceName ++ "." ++ sd ++ ".workers.dev/"
                if !waitForReadiness o.attempts then
                  let s := o.snapshotResp
                  let sJson :=
                    match nnull (optChainGet (some s.json) "result") with
                    | some v => v
                    | none => s.json
                  .ok ⟨false, none, some url,
                    some "Deployed, workers.dev enabled, but not serving yet (propagation/edge delay). Try again shortly.",
                    some 200, some url,
                    some (.obj [("auth", .str auth), ("settings", sJson)])⟩
                else .ok ⟨true, some serviceName, some url, none, none, none, some diag⟩
              | none => .ok ⟨true, some serviceName, none, none, none, none, some diag⟩

/-! ## `src/api/sandbox-deploy.ts` — sandbox deploy handlers

Two revisions are modelled: the first revision (generation pipeline + stage-6
deploy, no request validation) and the dual-mode revision shared by the
"Pages-first" file and `part_009` (these two differ only in the ephemeral
cleanup scheduled after the response, which no claim observes). -/

/-- Build a JSON object from present fields only (`JSON.stringify` drops
`undefined` members). -/
def objOfOpt (fields : List (String × Option JsonVal)) : JsonVal :=
  .obj (fields.filterMap fun f =>
    match f.2 with
    | some v => some (f.1, v)
    | none => none)

/-- What the first-revision handler observably did: response status and JSON
body, and whether the stage-6 `deploy` (the deployment side effect) ran. -/
structure V1Trace where
  status : Nat
  body : JsonVal
  deployCalled : Bool
deriving Repr

/-- The first revision of `sandboxDeployHandler` (`src/api/sandbox-deploy.ts`
lines 12–52): parse body (`\x7b\x7d` on failure), take `body?.idea ||
"LaunchWing Sandbox App"`, run the generation pipeline, then `deploy`; there
is no `confirm` check of any kind.  The pipeline and the deploy are external
effects, passed as oracles (`gen` is the pipeline outcome feeding `result.ir`
/ `result.artifacts`; `dep` the stage-6 deploy result). -/
def sandboxDeployHandlerV1 (body : JsonVal) (gen : Except String JsonVal)
    (dep : DeployResult) : V1Trace :=
  let _idea := jsOrOpt (jsGet body "idea") (.str "LaunchWing Sandbox App")
  match gen with
  | .error e => ⟨500, .obj [("ok", .bool false), ("error", .str e)], false⟩
  | .ok ir =>
    if !dep.ok then
      ⟨500, objOfOpt [("ok", some (.bool false)),
        ("error", some (.str (match dep.error with | some e => e | none => "deploy failed"))),
        ("status", dep.status.map (fun s => .num (toString s))),
        ("endpoint", dep.endpoint.map JsonVal.str)], true⟩
    else
      ⟨200, objOfOpt [("ok", some (.bool true)),
        ("url", dep.url.map JsonVal.str),
        ("name", dep.name.map JsonVal.str),
        ("ir", some ir)], true⟩

/-- The name character class `[a-z0-9-]` of the sandbox deploy. -/
def isNameChar (c : Char) : Bool :=
  ('a' ≤ c && c ≤ 'z') || ('0' ≤ c && c ≤ '9') || c = '-'

/-- `.toLowerCase().replace(/[^a-z0-9\-]/g, "-")` of the dual-mode handler. -/
def sanitizeSbxName (s : String) : String :=
  String.mk ((strToLower s).data.map (fun c => if isNameChar c then c else '-'))

/-- `pickName` of the dual-mode handler: prefix plus the random suffix
(`Math.random().toString(36).slice(2, 8)`, supplied as an oracle). -/
def pickName (pre : String) (rand : String) : String :=
  pre ++ "-" ++ rand

/-- The deployment name of the dual-mode handler:
`(payload.name || pickName("lw-sbx")).toLowerCase().replace(...)`; a truthy
non-string `payload.name` has no `.toLowerCase` and throws. -/
def computeSbxName (body : JsonVal) (rand : String) : Except String String :=
  match jsTruthyOpt (jsGet body "name") with
  | some (.str s) => .ok (sanitizeSbxName s)
  | some _ => .error "TypeError: toLowerCase is not a function"
  | none => .ok (sanitizeSbxName (pickName "lw-sbx" rand))

/-- Observed effects behind `deployPagesDirect`: the outcome of the
project-creation `cfJSON` call (it throws the upstream error message), and
the direct-upload deployment response. -/
structure PagesOracle where
  createOutcome : Except String Unit
  depOk : Bool
  depStatus : Nat
  depText : String

/-- `/^https?:\/\//i`. -/
def startsWithHttp (s : String) : Bool :=
  "http://".isPrefixOf (strToLower s) || "https://".isPrefixOf (strToLower s)

/-- The URL derivation at the end of `deployPagesDirect`: parse the
deployment response (an empty or unparseable body acts as `\x7b\x7d`), take
`depJson?.result || depJson`, then `result?.url || result?.domains?.[0]`,
prefixing `https://` unless the value already starts with a scheme, and fall
back to `https://name.pages.dev`. -/
def pagesUrlOf (name depText : String) : String :=
  let depJson := if depText = "" then .obj [] else (jsonParse depText).getD (.obj [])
  let result := jsOrOpt (optChainGet (some depJson) "result") depJson
  let primary := match jsTruthyOpt (optChainGet (some result) "url") with
    | some v => some v
    | none => jsTruthyOpt (optChainIndex (optChainGet (some result) "domains") 0)
  match primary with
  | some p =>
    let ps := jsToString p
    if startsWithHttp ps then ps else "https://" ++ ps
  | none => "https://" ++ name ++ ".pages.dev"

/-- `deployPagesDirect`: ensure the Pages project exists (an error matching
`/already exists|exists/i` is swallowed), upload the two-file bundle, then
derive the URL from the deployment response.  The uploaded asset contents
(the literal `index.html` / `_worker.js` templates) are not observable
through any claim and are not modelled. -/
def deployPagesDirect (accountId : Option String) (name : String)
    (o : PagesOracle) : Except String String := do
  if accountId.isNone then throw "Missing CLOUDFLARE_ACCOUNT_ID"
  match o.createOutcome with
  | .ok _ => pure ()
  | .error e => if containsCI e "exists" then pure () else throw e
  if !o.depOk then
    throw ("Pages deploy failed: HTTP " ++ toString o.depStatus ++ " — " ++ o.depText)
  pure (pagesUrlOf name o.depText)

/-- Observed response of the worker-script PUT of `deployWorker`. -/
structure WorkerOracle where
  upOk : Bool
  upStatus : Nat
  upText : String

/-- `deployWorker`: upload the single-file worker; it never resolves with a
URL (`return \x7b url: undefined \x7d`). -/
def deployWorker (accountId : Option String) (o : WorkerOracle) :
    Except String (Option String) := do
  if accountId.isNone then throw "Missing CLOUDFLARE_ACCOUNT_ID"
  if !o.upOk then
    throw ("Worker upload failed: HTTP " ++ toString o.upStatus ++ " — " ++ o.upText)
  pure none

/-- The fallback test `/workers\.dev.*disabled|workers_dev/i` on a thrown
message: either `workers_dev` occurs, or `workers.dev` occurs with
`disabled` somewhere after it. -/
def workersDevDisabledMsg (m : String) : Bool :=
  containsCI m "workers_dev" || matchSeq (strToLower m).data
where
  matchSeq : List Char → Bool
    | [] => false
    | c :: rest =>
      ("workers.dev".data.isPrefixOf (c :: rest) &&
        listContainsSub "disabled".data (("workers.dev".data).foldl (fun l _ => l.tail) (c :: rest)))
      || matchSeq rest

/-- What the dual-mode handler observably did. -/
structure V2Trace where
  status : Nat
  body : JsonVal
  nameUsed : Option String
  pagesAttempted : Bool
  workerAttempted : Bool
deriving Repr

/-- The dual-mode `sandboxDeployHandler` (`src/api/sandbox-deploy.ts` second
revision and `part_009`): the `confirm` gate, name selection and
sanitisation, then mode dispatch with the workers→pages fallback; every
thrown error is caught and reported as a 500 `\x7b ok:false, error \x7d`
response.  `nameUsed` is the name passed to the deploy calls. -/
def sandboxDeployHandlerV2 (body : JsonVal) (defaultMode : Option String)
    (rand : String) (accountId : Option String) (po : PagesOracle)
    (wo : WorkerOracle) : V2Trace :=
  if !(jsTruthy (jsOrOpt (jsGet body "confirm") (.bool false))) then
    ⟨400, .obj [("ok", .bool false), ("error", .str "confirm=false")], none, false, false⟩
  else
    let modeVal := jsOrOpt (jsTruthyOpt (jsGet body "mode"))
      (jsOrOpt (defaultMode.map JsonVal.str) (.str "pages"))
    let isWorkers := match modeVal with
      | .str m => m == "workers"
      | _ => false
    match computeSbxName body rand with
    | .error e => ⟨500, .obj [("ok", .bool false), ("error", .str e)], none, false, false⟩
    | .ok name =>
      if isWorkers then
        match deployWorker accountId wo with
        | .ok _ =>
          -- w.url is always undefined: auto-fallback to Pages
          match deployPagesDirect accountId name po with
          | .ok url =>
            ⟨200, .obj [("ok", .bool true), ("name", .str name), ("url", .str url),
              ("fallback", .str "pages")], some name, true, true⟩
          | .error e =>
            ⟨500, .obj [("ok", .bool false), ("error", .str e)], some name, true, true⟩
        | .error msg =>
          if workersDevDisabledMsg msg then
            match deployPagesDirect accountId name po with
            | .ok url =>
              ⟨200, .obj [("ok", .bool true), ("name", .str name), ("url", .str url),
                ("fallback", .str "pages")], some name, true, true⟩
            | .error e =>
              ⟨500, .obj [("ok", .bool false), ("error", .str e)], some name, true, true⟩
          else ⟨500, .obj [("ok", .bool false), ("error", .str msg)], some name, false, true⟩
      else
        match deployPagesDirect accountId name po with
        | .ok url =>
          ⟨200, .obj [("ok", .bool true), ("name", .str name), ("url", .str url)],
            some name, true, false⟩
        | .error e =>
          ⟨500, .obj [("ok", .bool false), ("error", .str e)], some name, true, false⟩

/-! ## `part_001` — stage-6 deploy script name -/

/-- Digit of `Number.prototype.toString(36)`. -/
def base36digit (d : Nat) : Char :=
  if d < 10 then Char.ofNat (48 + d) else Char.ofNat (87 + d)

/-- Base-36 digits of `n` (most significant first), with fuel. -/
def toBase36Aux : Nat → Nat → List Char
  | 0, _ => []
  | fuel + 1, n => if n = 0 then [] else toBase36Aux fuel (n / 36) ++ [base36digit (n % 36)]

/-- `n.toString(36)` for a natural number. -/
def toBase36 (n : Nat) : String :=
  if n = 0 then "0" else String.mk (toBase36Aux 33 n)

/-- `shortId` of `src/utils/cloudflare.ts`: a random `Uint32` rendered in
base 36, first 8 chars (the random draw is the argument). -/
def shortId (n : Nat) : String :=
  String.mk ((toBase36 (n % 2 ^ 32)).data.take 8)

/-- The `replace` with the dash-run regex (`-+`, global) and replacement `-`:
collapse runs of dashes to a single dash. -/
def collapseDashes (l : List Char) : List Char :=
  l.foldr (fun c acc => if c = '-' ∧ acc.head? = some '-' then acc else c :: acc) []

/-- The `nameBase` of `part_001`'s `deploy`: take `ir?.name || "app"`,
lower-case it, replace every char outside `[a-z0-9-]` with a dash, collapse
dash runs, `slice(0, 24)`, and fall back to `"app"` when the result is empty;
a truthy non-string `ir.name` throws at `.toLowerCase`. -/
def part001NameBase (ir : Option JsonVal) : Except String String :=
  match jsOrOpt (optChainGet ir "name") (.str "app") with
  | .str s =>
    let t := String.mk ((collapseDashes (sanitizeSbxName s).data).take 24)
    .ok (if t = "" then "app" else t)
  | _ => .error "TypeError: toLowerCase is not a function"

/-- The `scriptName` of `part_001`'s `deploy`: name base, dash, short id. -/
def part001ScriptName (ir : Option JsonVal) (rnd : Nat) : Except String String := do
  let base ← part001NameBase ir
  pure (base ++ "-" ++ shortId rnd)

/-- A valid sandbox resource name: non-empty and matching `^[a-z0-9-]+$`. -/
def validName (n : String) : Bool :=
  n != "" && n.data.all isNameChar

/-! ## Shared lemmas about the guardrail loop -/

/-- `bundleBytes` of a cons. -/
theorem bundleBytes_cons (e : String × String) (l : List (String × String)) :
    bundleBytes (e :: l) = utf8Len e.2 + bundleBytes l := by
  simp [bundleBytes]

/-- `bundleBytes` is invariant under reversal. -/
theorem bundleBytes_reverse (l : List (String × String)) :
    bundleBytes l.reverse = bundleBytes l := by
  simp [bundleBytes, List.sum_reverse]

/-- `bundleBytes` of an append. -/
theorem bundleBytes_append (l₁ l₂ : List (String × String)) :
    bundleBytes (l₁ ++ l₂) = bundleBytes l₁ + bundleBytes l₂ := by
  simp [bundleBytes]

/-- The guardrail loop never stores more than `MAX_FILES - n` further entries. -/
theorem limitLoop_length (rest : List (String × String)) :
    ∀ out total n, (limitLoop rest out total n).length ≤ out.length + (MAX_FILES - n) := by
  induction rest with
  | nil => intro out total n; simp [limitLoop]
  | cons e rest ih =>
    obtain ⟨p, c⟩ := e
    intro out total n
    by_cases hn : MAX_FILES ≤ n
    · simp [limitLoop, hn]
    · by_cases hb : MAX_BYTES < total + utf8Len c
      · simp [limitLoop, hn, hb]
      · have := ih ((p, c) :: out) (total + utf8Len c) (n + 1)
        simp only [limitLoop, if_neg hn, if_neg hb]
        simp only [List.length_cons] at this
        omega

/-- The guardrail loop keeps the stored total within `MAX_BYTES`. -/
theorem limitLoop_bytes (rest : List (String × String)) :
    ∀ out total n, total ≤ MAX_BYTES →
      bundleBytes (limitLoop rest out total n) ≤ bundleBytes out + (MAX_BYTES - total) := by
  induction rest with
  | nil => intro out total n _; simp [limitLoop, bundleBytes_reverse]
  | cons e rest ih =>
    obtain ⟨p, c⟩ := e
    intro out total n ht
    by_cases hn : MAX_FILES ≤ n
    · have : bundleBytes (limitLoop ((p, c) :: rest) out total n) = bundleBytes out := by
        simp [limitLoop, hn, bundleBytes_reverse]
      omega
    · by_cases hb : MAX_BYTES < total + utf8Len c
      · have : bundleBytes (limitLoop ((p, c) :: rest) out total n) = bundleBytes out := by
          simp [limitLoop, hn, hb, bundleBytes_reverse]
        omega
      · push_neg at hb
        have hih := ih ((p, c) :: out) (total + utf8Len c) (n + 1) hb
        simp only [limitLoop, if_neg hn, if_neg (by omega : ¬ MAX_BYTES < total + utf8Len c)]
        rw [bundleBytes_cons] at hih
        simp only at hih
        omega

/-- The guardrail loop returns the already-stored entries followed by some
prefix of the remaining input: it drops a suffix silently, it never errors. -/
theorem limitLoop_prefix (rest : List (String × String)) :
    ∀ out total n, ∃ k, limitLoop rest out total n = out.reverse ++ rest.take k := by
  induction rest with
  | nil => intro out total n; exact ⟨0, by simp [limitLoop]⟩
  | cons e rest ih =>
    obtain ⟨p, c⟩ := e
    intro out total n
    by_cases hn : MAX_FILES ≤ n
    · exact ⟨0, by simp [limitLoop, hn]⟩
    · by_cases hb : MAX_BYTES < total + utf8Len c
      · exact ⟨0, by simp [limitLoop, hn, hb]⟩
      · obtain ⟨k, hk⟩ := ih ((p, c) :: out) (total + utf8Len c) (n + 1)
        refine ⟨k + 1, ?_⟩
        simp only [limitLoop, if_neg hn, if_neg hb]
        rw [hk]
        simp

/-- The injection step adds at most the proxy worker. -/
theorem injectWorker_length (out : List (String × String)) :
    (injectWorker out).length ≤ out.length + 1 := by
  unfold injectWorker
  split <;> simp

/-- The injection step adds at most the proxy worker's bytes. -/
theorem injectWorker_bytes (out : List (String × String)) :
    bundleBytes (injectWorker out) ≤ bundleBytes out + utf8Len PROXY_WORKER_JS := by
  unfold injectWorker
  split
  · rw [bundleBytes_append]; simp [bundleBytes]
  · omega

/-! ## Claim C1 -/

/-- Fifty model files with distinct names, none of them `_worker.js`. -/
def c1Input : List (String × JsonVal) :=
  (List.range 50).map (fun i => (toString i, JsonVal.str ""))

/-- Claim C1 (counterexample).  The claim says every response bundle has at
most `MAX_FILES` (50) files; but the `_worker.js` injection runs after the
guardrail loop, so 50 model files (already at the cap, none named
`_worker.js`/`_worker.ts`) produce a 51-file response bundle. -/
theorem c1_caps_counterexample :
    (applyGuardrails c1Input).length = 51 ∧
    ¬ ((applyGuardrails c1Input).length ≤ MAX_FILES) := by
  constructor
  · rfl
  · decide

/-- Claim C1 (amended).  The guardrail loop itself enforces both caps and
truncates silently (its output is a prefix of the sanitised entries — files
beyond the caps are dropped, never reported as an error); the final bundle,
after the `_worker.js` injection, satisfies the caps only up to one extra
file and the proxy worker's bytes: at most `MAX_FILES + 1` files and at most
`MAX_BYTES + utf8Len PROXY_WORKER_JS` bytes. -/
theorem c1_caps_amended (files : List (String × JsonVal)) :
    (enforceLimits files).length ≤ MAX_FILES ∧
    bundleBytes (enforceLimits files) ≤ MAX_BYTES ∧
    (∃ k, enforceLimits files = (files.map sanitizeEntry).take k) ∧
    (applyGuardrails files).length ≤ MAX_FILES + 1 ∧
    bundleBytes (applyGuardrails files) ≤ MAX_BYTES + utf8Len PROXY_WORKER_JS := by
  have h1 : (enforceLimits files).length ≤ MAX_FILES := by
    simpa [enforceLimits] using limitLoop_length (files.map sanitizeEntry) [] 0 0
  have h2 : bundleBytes (enforceLimits files) ≤ MAX_BYTES := by
    have := limitLoop_bytes (files.map sanitizeEntry) [] 0 0 (by simp [MAX_BYTES])
    simpa [enforceLimits, bundleBytes] using this
  refine ⟨h1, h2, ?_, ?_, ?_⟩
  · simpa [enforceLimits] using limitLoop_prefix (files.map sanitizeEntry) [] 0 0
  · have := injectWorker_length (enforceLimits files)
    simp only [applyGuardrails]
    omega
  · have := injectWorker_bytes (enforceLimits files)
    simp only [applyGuardrails]
    omega

/-! ## Shared lemmas about the GitHub push loop -/

/-- Characterisation of the push loop: the successful PUTs are exactly the
entries before the first failing one, in entry order, and an error is thrown
iff some entry fails. -/
theorem pushLoop_spec (oracle : String → FileOracle) (message : String)
    (files : List (String × String)) :
    (pushLoop oracle message files).1 =
      (files.take (firstPutFail oracle files)).map (mkPut oracle message) ∧
    ((pushLoop oracle message files).2.isSome ↔ firstPutFail oracle files < files.length) := by
  induction files with
  | nil => simp [pushLoop, firstPutFail]
  | cons e rest ih =>
    by_cases hp : (oracle e.1).putOk
    · have hidx : firstPutFail oracle (e :: rest) = firstPutFail oracle rest + 1 := by
        simp [firstPutFail, List.findIdx_cons, hp]
      simp only [pushLoop, hp, if_true, hidx, List.take_succ_cons, List.map_cons,
        List.length_cons]
      refine ⟨by rw [ih.1], ?_⟩
      rw [ih.2]
      omega
    · have hidx : firstPutFail oracle (e :: rest) = 0 := by
        simp [firstPutFail, List.findIdx_cons, hp]
      simp [pushLoop, hp, hidx]

/-- If every PUT succeeds the loop throws nothing. -/
theorem pushLoop_all_ok (oracle : String → FileOracle) (message : String)
    (files : List (String × String))
    (h : ∀ e ∈ files, (oracle e.1).putOk = true) :
    (pushLoop oracle message files).2 = none := by
  induction files with
  | nil => simp [pushLoop]
  | cons e rest ih =>
    have he := h e (by simp)
    simp only [pushLoop, he, if_true]
    exact ih (fun e' he' => h e' (by simp [he']))

/-! ## Claim C5 -/

/-- Claim C5.  The GitHub export pushes each file independently and
sequentially in entry order; each issued PUT carries the `sha` fetched for
that path immediately beforehand (present exactly when the GET answered 200);
on the first failing PUT the operation throws, the entries before it remain
pushed, and no later entry is attempted. -/
theorem c5_push_order_and_partiality (oracle : String → FileOracle)
    (message : String) (files : List (String × String)) :
    (pushLoop oracle message files).1 =
      (files.take (firstPutFail oracle files)).map (mkPut oracle message) ∧
    ((pushLoop oracle message files).2.isSome ↔ firstPutFail oracle files < files.length) ∧
    (∀ pc ∈ (pushLoop oracle message files).1,
      pc.sha = (if (oracle pc.path).getStatus = 200
        then jsGet (oracle pc.path).getBody "sha" else none)) := by
  obtain ⟨h1, h2⟩ := pushLoop_spec oracle message files
  refine ⟨h1, h2, ?_⟩
  intro pc hpc
  rw [h1] at hpc
  obtain ⟨e, _, rfl⟩ := List.mem_map.1 hpc
  simp [mkPut, shaOf]

/-! ## Shared lemmas about the sandbox name sanitisation -/

/-- The per-character replacement of the sanitiser. -/
theorem isNameChar_if_repl (c : Char) :
    isNameChar (if isNameChar c then c else '-') = true := by
  by_cases h : isNameChar c
  · simp [h]
  · simp [h]
    decide

/-- A base-36 digit is in `[a-z0-9-]`. -/
theorem isNameChar_base36digit (d : Nat) (h : d < 36) :
    isNameChar (base36digit d) = true := by
  interval_cases d <;> decide

/-- Every character the sanitiser emits is in `[a-z0-9-]`, and length is
preserved, so a non-empty input yields a valid name. -/
theorem validName_sanitizeSbxName (s : String) (h : s ≠ "") :
    validName (sanitizeSbxName s) = true := by
  have hne : sanitizeSbxName s ≠ "" := by
    intro hempty
    apply h
    have h1 : (strToLower s).data.map (fun c => if isNameChar c then c else '-') = [] := by
      simpa [sanitizeSbxName] using congrArg String.data hempty
    rw [List.map_eq_nil_iff] at h1
    have h2 : s.data.map Char.toLower = [] := by simpa [strToLower] using h1
    rw [List.map_eq_nil_iff] at h2
    exact String.ext (by simp [h2])
  have hall : ((sanitizeSbxName s).data.all isNameChar) = true := by
    rw [List.all_eq_true]
    intro c hc
    simp only [sanitizeSbxName] at hc
    rw [List.mem_map] at hc
    obtain ⟨c', _, rfl⟩ := hc
    exact isNameChar_if_repl c'
  simp [validName, hne, hall]

/-- Every digit `toString(36)` produces is in `[a-z0-9-]`. -/
theorem toBase36Aux_chars (fuel : Nat) :
    ∀ n, ∀ c ∈ toBase36Aux fuel n, isNameChar c = true := by
  induction fuel with
  | zero => intro n c hc; simp [toBase36Aux] at hc
  | succ fuel ih =>
    intro n c hc
    by_cases hn : n = 0
    · simp [toBase36Aux, hn] at hc
    · simp only [toBase36Aux, if_neg hn, List.mem_append, List.mem_singleton] at hc
      rcases hc with hc | hc
      · exact ih (n / 36) c hc
      · subst hc
        exact isNameChar_base36digit _ (Nat.mod_lt _ (by omega))

/-- `shortId` yields a non-empty string of `[a-z0-9-]` characters. -/
theorem validName_shortId (n : Nat) : validName (shortId n) = true := by
  by_cases h0 : n % 2 ^ 32 = 0
  · simp only [shortId, toBase36, h0, if_pos rfl]
    decide
  · have hne : toBase36Aux 33 (n % 2 ^ 32) ≠ [] := by
      simp only [toBase36Aux, if_neg h0]
      simp
    have hall : ∀ c ∈ (toBase36 (n % 2 ^ 32)).data.take 8, isNameChar c = true := by
      intro c hc
      have hmem : c ∈ (toBase36 (n % 2 ^ 32)).data := List.mem_of_mem_take hc
      simp only [toBase36, if_neg h0] at hmem
      exact toBase36Aux_chars 33 (n % 2 ^ 32) c hmem
    have hne8 : (toBase36 (n % 2 ^ 32)).data.take 8 ≠ [] := by
      simp only [toBase36, if_neg h0]
      intro hemp
      rw [List.take_eq_nil_iff] at hemp
      rcases hemp with hemp | hemp
      · exact absurd hemp (by decide)
      · exact hne hemp
    simp only [shortId, validName, Bool.and_eq_true, bne_iff_ne, ne_eq, List.all_eq_true]
    constructor
    · intro hstr
      exact hne8 (by simpa using congrArg String.data hstr)
    · intro c hc
      exact hall c (by simpa using hc)

/-- Unfolding `collapseDashes` on a cons. -/
theorem collapseDashes_cons (a : Char) (l : List Char) :
    collapseDashes (a :: l) =
      if a = '-' ∧ (collapseDashes l).head? = some '-' then collapseDashes l
      else a :: collapseDashes l := rfl

/-- Collapsing dash runs keeps membership in the original list's characters
plus a dash, and preserves non-emptiness. -/
theorem collapseDashes_sublist (l : List Char) :
    (∀ c ∈ collapseDashes l, c ∈ l) ∧ (l ≠ [] → collapseDashes l ≠ []) := by
  induction l with
  | nil => simp [collapseDashes]
  | cons a l ih =>
    constructor
    · intro c hc
      rw [collapseDashes_cons] at hc
      by_cases hcond : a = '-' ∧ (collapseDashes l).head? = some '-'
      · rw [if_pos hcond] at hc
        exact List.mem_cons_of_mem _ (ih.1 c hc)
      · rw [if_neg hcond] at hc
        rcases List.mem_cons.1 hc with rfl | hmem
        · exact List.mem_cons_self _ _
        · exact List.mem_cons_of_mem _ (ih.1 c hmem)
    · intro _
      rw [collapseDashes_cons]
      by_cases hcond : a = '-' ∧ (collapseDashes l).head? = some '-'
      · rw [if_pos hcond]
        intro hemp
        rw [hemp] at hcond
        simp at hcond
      · rw [if_neg hcond]
        simp
      
/-- The name base of `part_001`'s `deploy` is a valid name whenever it is
produced (i.e. `ir?.name` was not a truthy non-string). -/
theorem part001NameBase_valid (ir : Option JsonVal) (nm : String)
    (h : part001NameBase ir = .ok nm) : validName nm = true := by
  unfold part001NameBase at h
  cases hbase : jsOrOpt (optChainGet ir "name") (.str "app") with
  | str s =>
    rw [hbase] at h
    simp only [Except.ok.injEq] at h
    by_cases hemp : String.mk ((collapseDashes (sanitizeSbxName s).data).take 24) = ""
    · rw [if_pos hemp] at h
      subst h
      decide
    · rw [if_neg hemp] at h
      subst h
      have hchars : ∀ c ∈ (collapseDashes (sanitizeSbxName s).data).take 24,
          isNameChar c = true := by
        intro c hc
        have h1 : c ∈ collapseDashes (sanitizeSbxName s).data := List.mem_of_mem_take hc
        have h2 : c ∈ (sanitizeSbxName s).data := (collapseDashes_sublist _).1 c h1
        simp only [sanitizeSbxName] at h2
        rw [List.mem_map] at h2
        obtain ⟨c', _, rfl⟩ := h2
        exact isNameChar_if_repl c'
      simp only [validName, Bool.and_eq_true, bne_iff_ne, ne_eq, List.all_eq_true]
      exact ⟨hemp, fun c hc => hchars c (by simpa using hc)⟩
  | null => rw [hbase] at h; simp at h
  | bool b => rw [hbase] at h; simp at h
  | num r => rw [hbase] at h; simp at h
  | arr xs => rw [hbase] at h; simp at h
  | obj fs => rw [hbase] at h; simp at h

/-- Appending strings of name characters yields a valid name when the left
part already is one. -/
theorem validName_append (a b : String) (ha : validName a = true)
    (hb : ∀ c ∈ b.data, isNameChar c = true) : validName (a ++ b) = true := by
  simp only [validName, Bool.and_eq_true, bne_iff_ne, ne_eq, List.all_eq_true] at ha ⊢
  constructor
  · intro hemp
    apply ha.1
    have : a.data ++ b.data = [] := by simpa [String.data_append] using congrArg String.data hemp
    rcases List.append_eq_nil.1 this with ⟨h1, _⟩
    exact String.ext (by simp [h1])
  · intro c hc
    have : c ∈ a.data ++ b.data := by simpa [String.data_append] using hc
    rcases List.mem_append.1 this with hm | hm
    · exact ha.2 c (by simpa using hm)
    · exact hb c hm

/-- The script name of `part_001`'s `deploy` is a valid name whenever it is
produced. -/
theorem part001ScriptName_valid (ir : Option JsonVal) (rnd : Nat) (nm : String)
    (h : part001ScriptName ir rnd = .ok nm) : validName nm = true := by
  unfold part001ScriptName at h
  cases hbase : part001NameBase ir with
  | error e => rw [hbase] at h; simp [Except.bind] at h
  | ok base =>
    rw [hbase] at h
    simp only [Bind.bind, Except.bind, Pure.pure, Except.pure, Except.ok.injEq] at h
    subst h
    have h1 : validName (base ++ "-") = true := by
      refine validName_append base "-" (part001NameBase_valid ir base hbase) ?_
      intro c hc
      simp only [show ("-" : String).data = ['-'] from rfl, List.mem_singleton] at hc
      subst hc
      decide
    have h2 : validName (shortId rnd) = true := validName_shortId rnd
    have h3 : ∀ c ∈ (shortId rnd).data, isNameChar c = true := by
      simp only [validName, Bool.and_eq_true, List.all_eq_true] at h2
      intro c hc
      exact h2.2 c (by simpa using hc)
    have := validName_append (base ++ "-") (shortId rnd) h1 h3
    simpa [String.append_assoc] using this

/-- A value surviving the truthiness filter is truthy. -/
theorem jsTruthyOpt_some (x : Option JsonVal) (v : JsonVal)
    (h : jsTruthyOpt x = some v) : jsTruthy v = true := by
  cases x with
  | none => simp [jsTruthyOpt] at h
  | some w =>
    simp only [jsTruthyOpt] at h
    by_cases ht : jsTruthy w
    · rw [if_pos ht] at h
      cases h
      exact ht
    · rw [if_neg ht] at h
      simp at h

/-- The name computed by the dual-mode handler is valid whenever it is
produced. -/
theorem computeSbxName_valid (body : JsonVal) (rand : String) (nm : String)
    (h : computeSbxName body rand = .ok nm) : validName nm = true := by
  unfold computeSbxName at h
  cases htr : jsTruthyOpt (jsGet body "name") with
  | none =>
    rw [htr] at h
    simp only [Except.ok.injEq] at h
    subst h
    refine validName_sanitizeSbxName _ ?_
    intro hemp
    have : (pickName "lw-sbx" rand).data = [] := by
      simpa using congrArg String.data hemp
    simp [pickName, String.data_append] at this
  | some v =>
    rw [htr] at h
    cases v with
    | str s =>
      simp only [Except.ok.injEq] at h
      subst h
      have ht := jsTruthyOpt_some _ _ htr
      refine validName_sanitizeSbxName s ?_
      intro hemp
      subst hemp
      simp [jsTruthy, jsFalsy] at ht
    | null => simp at h
    | bool b => simp at h
    | num r => simp at h
    | arr xs => simp at h
    | obj fs => simp at h

/-! ## Claim C9 -/

/-- Claim C9.  Every name the sandbox deploy actually uses matches
`^[a-z0-9-]+$`: in the dual-mode handler the caller-supplied or picked name
is lower-cased with every character outside `[a-z0-9-]` replaced by `-`
before any deploy call receives it, and the stage-6 deploy's script name
(name base plus short id) is likewise valid. -/
theorem c9_deploy_name_pattern (body : JsonVal) (defaultMode : Option String)
    (rand : String) (accountId : Option String) (po : PagesOracle)
    (wo : WorkerOracle) (ir : Option JsonVal) (rnd : Nat) :
    (∀ nm, (sandboxDeployHandlerV2 body defaultMode rand accountId po wo).nameUsed = some nm →
      validName nm = true) ∧
    (∀ nm, part001ScriptName ir rnd = .ok nm → validName nm = true) := by
  constructor
  · intro nm hnm
    unfold sandboxDeployHandlerV2 at hnm
    split at hnm
    · simp at hnm
    · split at hnm
      · simp at hnm
      · rename_i name heq
        have hval := computeSbxName_valid body rand name heq
        split at hnm
        all_goals try split at hnm
        all_goals try split at hnm
        all_goals simp_all [apply_ite V2Trace.nameUsed]
  · intro nm h
    exact part001ScriptName_valid ir rnd nm h

/-- Concrete request body for the claim C9 witness. -/
def c9Body : JsonVal := .obj [("confirm", .bool true), ("name", .str "Hello World!")]

/-- Benign pages-deploy oracle for witnesses. -/
def benignPages : PagesOracle := ⟨.ok (), true, 200, ""⟩

/-- Benign worker-deploy oracle for witnesses. -/
def benignWorker : WorkerOracle := ⟨true, 200, ""⟩

/-- Witness for claim C9: a concrete deploy run uses the sanitised name
`hello-world-`, and it is valid; the stage-6 script name for a concrete IR
and random draw is produced and valid. -/
theorem c9_deploy_name_pattern_witness :
    (sandboxDeployHandlerV2 c9Body none "ab12cd" (some "acc") benignPages
      benignWorker).nameUsed = some "hello-world-" ∧
    validName "hello-world-" = true ∧
    part001ScriptName (some (.obj [("name", .str "My App")])) 123456789 = .ok "my-app-21i3v9" ∧
    validName "my-app-21i3v9" = true := by
  refine ⟨rfl, ?_, rfl, ?_⟩
  · exact (c9_deploy_name_pattern c9Body none "ab12cd" (some "acc") benignPages
      benignWorker none 0).1 "hello-world-" rfl
  · exact (c9_deploy_name_pattern c9Body none "ab12cd" (some "acc") benignPages
      benignWorker (some (.obj [("name", .str "My App")])) 123456789).2 "my-app-21i3v9" rfl

/-! ## Shared lemmas about the readiness poll -/

/-- The poll consults at most its attempt budget of trace entries. -/
theorem readinessLoop_take (n : Nat) :
    ∀ l : List Attempt, readinessLoop n l = readinessLoop n (l.take n) := by
  induction n with
  | zero => intro l; simp [readinessLoop]
  | succ n ih =>
    intro l
    cases l with
    | nil => simp
    | cons a rest =>
      simp only [readinessLoop, List.take_succ_cons]
      by_cases ha : attemptReady a
      · simp [ha]
      · simp [ha, ih rest]

/-- If no consulted attempt is ready the poll reports failure. -/
theorem readinessLoop_all_fail (n : Nat) :
    ∀ l : List Attempt, (∀ a ∈ l.take n, attemptReady a = false) →
      readinessLoop n l = false := by
  induction n with
  | zero => intro l _; simp [readinessLoop]
  | succ n ih =>
    intro l h
    cases l with
    | nil => simp [readinessLoop]
    | cons a rest =>
      have ha : attemptReady a = false := h a (by simp)
      simp only [readinessLoop, ha, if_neg (by simp : ¬(false = true))]
      exact ih rest (fun a' ha' => h a' (by simp [List.take_succ_cons, ha']))

/-! ## Claim C3 -/

/-- Claim C3.  The readiness poll probes the health path and then the root
path; a 2xx health response, and a 2xx non-placeholder root response, are
treated as ready; the poll is bounded (it consults at most 30 trace entries);
and when every consulted attempt fails, `uploadModuleWorker` (after an
otherwise successful deploy) returns `ok:false` with the workers.dev URL
still present and an error containing "not serving yet". -/
theorem c3_readiness_poll (serviceName code tok accountId sd : String) (o : CfOracle)
    (hcreate : o.createResp.ok = true ∨ o.createResp.status = 409)
    (hup : o.uploadResp.ok = true) (hpatch : o.patchResp.ok = true)
    (hver : o.verifyResp.ok = true)
    (hen : (match optChainGet (optChainGet (some o.verifyResp.json) "result") "workers_dev" with
            | some v => jsTruthy v
            | none => false) = true)
    (hfail : ∀ a ∈ o.attempts.take 30, attemptReady a = false) :
    (∃ res, uploadModuleWorker serviceName code
        ⟨some tok, some accountId, some sd, none, none⟩ o = .ok res ∧
      res.ok = false ∧
      res.url = some ("https://" ++ serviceName ++ "." ++ sd ++ ".workers.dev/") ∧
      strContains ((res.error).getD "") "not serving yet" = true) ∧
    (∀ l : List Attempt, waitForReadiness l = waitForReadiness (l.take 30)) ∧
    (∀ (a : Attempt) (h : CfResp), a.health = some h →
      200 ≤ h.status → h.status < 300 → attemptReady a = true) ∧
    (∀ (a : Attempt) (h r : CfResp), a.health = some h → okish h.status = false →
      a.root = some r → 200 ≤ r.status → r.status < 300 →
      isPlaceholder a.rootBody = false → attemptReady a = true) := by
  refine ⟨?_, ?_, ?_, ?_⟩
  · have hready : waitForReadiness o.attempts = false :=
      readinessLoop_all_fail 30 o.attempts hfail
    refine ⟨⟨false, none, some ("https://" ++ serviceName ++ "." ++ sd ++ ".workers.dev/"),
      some "Deployed, workers.dev enabled, but not serving yet (propagation/edge delay). Try again shortly.",
      some 200, some ("https://" ++ serviceName ++ "." ++ sd ++ ".workers.dev/"),
      some (.obj [("auth", .str "api-token"),
        ("settings", match nnull (optChainGet (some o.snapshotResp.json) "result") with
                     | some v => v
                     | none => o.snapshotResp.json)])⟩, ?_, rfl, rfl, ?_⟩
    · unfold uploadModuleWorker
      have hauth : cfAuthMode ⟨some tok, some accountId, some sd, none, none⟩ = "api-token" := rfl
      have h1 : (!o.createResp.ok && decide (o.createResp.status ≠ 409)) = false := by
        rcases hcreate with h | h <;> simp [h]
      have h2 : (!o.uploadResp.ok) = false := by rw [hup]; rfl
      have h3 : (!o.patchResp.ok) = false := by rw [hpatch]; rfl
      have h4 : (!o.verifyResp.ok ||
          !((match optChainGet (optChainGet (some o.verifyResp.json) "result") "workers_dev" with
             | some v => jsTruthy v
             | none => false) ||
            (match jsGet o.verifyResp.json "workers_dev" with
             | some (.bool true) => true
             | _ => false))) = false := by
        rw [hver, hen]
        simp
      simp only [hauth, h1, h2, h3, h4, hready, Bool.false_eq_true, if_false,
        Bool.not_false, if_true]
      rw [if_neg (by decide : ¬(("api-token" : String) = "none"))]
    · show strContains
        "Deployed, workers.dev enabled, but not serving yet (propagation/edge delay). Try again shortly."
        "not serving yet" = true
      decide
  · intro l
    exact readinessLoop_take 30 l
  · intro a h hh h1 h2
    have hok : okish h.status = true := by simp [okish]; omega
    simp [attemptReady, hh, hok]
  · intro a h r hh hno hr h1 h2 hpl
    have hok : okish r.status = true := by simp [okish]; omega
    by_cases hct : strContains a.rootContentType "text/html"
    · simp [attemptReady, hh, hno, hr, hok, hct, hpl]
    · simp [attemptReady, hh, hno, hr, hok, hct]

/-- A trace of thirty failing attempts for the claim C3 witness. -/
def c3FailTrace : List Attempt :=
  List.replicate 30 ⟨some ⟨false, 500, .obj [], ""⟩, some ⟨false, 500, .obj [], ""⟩, "", ""⟩

/-- A Cloudflare oracle whose deploy succeeds but whose readiness poll
always fails, for the claim C3 witness. -/
def c3Oracle : CfOracle :=
  ⟨⟨true, 200, .obj [], ""⟩, ⟨true, 200, .obj [], ""⟩, ⟨true, 200, .obj [], ""⟩,
   ⟨true, 200, .obj [("result", .obj [("workers_dev", .bool true)])], ""⟩,
   c3FailTrace, ⟨true, 200, .obj [], ""⟩⟩

/-- Witness for claim C3 at a concrete deploy run. -/
theorem c3_readiness_poll_witness :
    ∃ res, uploadModuleWorker "svc" "code" ⟨some "tok", some "acc", some "sub", none, none⟩
        c3Oracle = .ok res ∧
      res.ok = false ∧
      res.url = some ("https://" ++ "svc" ++ "." ++ "sub" ++ ".workers.dev/") ∧
      strContains ((res.error).getD "") "not serving yet" = true :=
  (c3_readiness_poll "svc" "code" "tok" "acc" "sub" c3Oracle
    (Or.inl rfl) rfl rfl rfl rfl (by decide)).1

/-! ## Claim C4 -/

/-- A second `ensureRepo` call in an environment where the existence probe
misses (GET 404) and the creation answers with a 422 "name already exists"
conflict. -/
def c4RepoOracle : RepoOracle :=
  ⟨404, .null, false, 422, "name already exists on this account", .null⟩

/-- Claim C4 (counterexample).  The claim says every "ensure resource exists"
step treats an HTTP 409 / "already exists" error from the create call as
success; but `ensureRepo` propagates any failing create response — including
an "already exists" conflict — as a thrown error. -/
theorem c4_ensure_idempotent_counterexample :
    ensureRepo ⟨true, true, "LaunchWing"⟩ c4RepoOracle =
      .error "GitHub create repo failed: 422 name already exists on this account" ∧
    containsCI "name already exists on this account" "already exists" = true := by
  exact ⟨rfl, by decide⟩

/-- Claim C4 (amended).  The Cloudflare ensure-service step treats HTTP 409
from the create call as success, and the Pages ensure-project step swallows
an "already exists" error, so a second call with the same name succeeds for
those strategies; the GitHub `ensureRepo` is instead idempotent through its
GET-before-create probe (a second call succeeds when the probe finds the
repository), and a failing create response — even an "already exists"
conflict — is propagated as an error, not treated as success. -/
theorem c4_ensure_idempotent_amended (tok accountId sd name code e : String)
    (o : CfOracle) (po : PagesOracle) (env : GhEnv) (ro : RepoOracle)
    (_hc1 : o.createResp.ok = false) (hc2 : o.createResp.status = 409)
    (hup : o.uploadResp.ok = true) (hpatch : o.patchResp.ok = true)
    (hver : o.verifyResp.ok = true)
    (hen : (match optChainGet (optChainGet (some o.verifyResp.json) "result") "workers_dev" with
            | some v => jsTruthy v
            | none => false) = true)
    (hready : waitForReadiness o.attempts = true)
    (hpo : po.createOutcome = .error e) (he : containsCI e "exists" = true)
    (hdep : po.depOk = true)
    (htok : env.hasToken = true) (horg : env.hasOrg = true)
    (hget : ro.getStatus = 200)
    (ro2 : RepoOracle) (hget2 : ro2.getStatus ≠ 200) (hcr2 : ro2.createOk = false) :
    uploadModuleWorker name code ⟨some tok, some accountId, some sd, none, none⟩ o =
      .ok ⟨true, some name, some ("https://" ++ name ++ "." ++ sd ++ ".workers.dev/"),
        none, none, none, some (.obj [("auth", .str "api-token")])⟩ ∧
    (∃ url, deployPagesDirect (some accountId) name po = .ok url) ∧
    ensureRepo env ro = .ok ro.getBody ∧
    ensureRepo env ro2 =
      .error ("GitHub create repo failed: " ++ toString ro2.createStatus ++ " " ++ ro2.createText) := by
  refine ⟨?_, ?_, ?_, ?_⟩
  · unfold uploadModuleWorker
    have hauth : cfAuthMode ⟨some tok, some accountId, some sd, none, none⟩ = "api-token" := rfl
    have h1 : (!o.createResp.ok && decide (o.createResp.status ≠ 409)) = false := by
      simp [hc2]
    have h2 : (!o.uploadResp.ok) = false := by rw [hup]; rfl
    have h3 : (!o.patchResp.ok) = false := by rw [hpatch]; rfl
    have h4 : (!o.verifyResp.ok ||
        !((match optChainGet (optChainGet (some o.verifyResp.json) "result") "workers_dev" with
           | some v => jsTruthy v
           | none => false) ||
          (match jsGet o.verifyResp.json "workers_dev" with
           | some (.bool true) => true
           | _ => false))) = false := by
      rw [hver, hen]
      simp
    have h5 : (!waitForReadiness o.attempts) = false := by rw [hready]; rfl
    simp only [hauth, h1, h2, h3, h4, h5, Bool.false_eq_true, if_false]
    rw [if_neg (by decide : ¬(("api-token" : String) = "none"))]
  · unfold deployPagesDirect
    rw [hpo]
    simp only [Option.isNone_some, Bool.false_eq_true, if_false, he, if_true, hdep,
      Bool.not_true, Bind.bind, Except.bind, Pure.pure, Except.pure]
    exact ⟨_, rfl⟩
  · simp [ensureRepo, htok, horg, hget]
  · simp [ensureRepo, htok, horg, hget2, hcr2]

/-- Witness for claim C4 at concrete responses: a 409 service creation, an
"already exists" Pages creation error, a 200 repo probe, and a failing
repo creation. -/
theorem c4_ensure_idempotent_witness :
    uploadModuleWorker "svc" "code" ⟨some "tok", some "acc", some "sub", none, none⟩
        ⟨⟨false, 409, .obj [], ""⟩, ⟨true, 200, .obj [], ""⟩, ⟨true, 200, .obj [], ""⟩,
         ⟨true, 200, .obj [("result", .obj [("workers_dev", .bool true)])], ""⟩,
         [⟨some ⟨true, 200, .obj [], ""⟩, none, "", ""⟩], ⟨true, 200, .obj [], ""⟩⟩ =
      .ok ⟨true, some "svc", some ("https://" ++ "svc" ++ "." ++ "sub" ++ ".workers.dev/"),
        none, none, none, some (.obj [("auth", .str "api-token")])⟩ ∧
    (∃ url, deployPagesDirect (some "acc") "svc"
        ⟨.error "A project with this name already exists", true, 200, ""⟩ = .ok url) ∧
    ensureRepo ⟨true, true, "LaunchWing"⟩ ⟨200, .obj [("id", .num "1")], true, 201, "", .null⟩ =
      .ok (.obj [("id", .num "1")]) ∧
    ensureRepo ⟨true, true, "LaunchWing"⟩ c4RepoOracle =
      .error ("GitHub create repo failed: " ++ toString 422 ++ " " ++ "name already exists on this account") :=
  c4_ensure_idempotent_amended "tok" "acc" "sub" "svc" "code"
    "A project with this name already exists" _ _ _ _
    rfl rfl rfl rfl rfl rfl (by decide) rfl (by decide) rfl rfl rfl rfl
    c4RepoOracle (by decide) rfl

/-! ## Shared lemma about the extraction fallback -/

/-- The content fallback returns a string unless it returns the truthy
`content[0].text` field verbatim. -/
theorem contentFallback_spec (j : JsonVal) :
    (∃ s, contentFallback j = .str s) ∨
    (∃ c0 rest, jsGet j "content" = some (.arr (c0 :: rest)) ∧
      optChainGet (some c0) "text" = some (contentFallback j) ∧
      jsTruthy (contentFallback j) = true) := by
  unfold contentFallback
  split
  · rename_i c0 rest hcontent
    split
    · rename_i t htext
      split
      · rename_i htruthy
        exact Or.inr ⟨c0, rest, hcontent, htext, htruthy⟩
      · unfold finalFallback
        split
        · exact Or.inl ⟨_, rfl⟩
        · exact Or.inl ⟨_, rfl⟩
    · unfold finalFallback
      split
      · exact Or.inl ⟨_, rfl⟩
      · exact Or.inl ⟨_, rfl⟩
  · unfold finalFallback
    split
    · exact Or.inl ⟨_, rfl⟩
    · exact Or.inl ⟨_, rfl⟩

/-- The only `TypeError` the inner content mapping throws is the
null-property one. -/
theorem contentPartText_error (c : JsonVal) (e : String)
    (h : contentPartText c = .error e) :
    e = "TypeError: Cannot read properties of null" := by
  cases c with
  | null =>
    injection h with h1
    exact h1.symm
  | obj cfs =>
    have hred : contentPartText (.obj cfs) =
        (match lookupField cfs "text" with
         | some v => .ok (if jsFalsy v then "" else jsToString v)
         | none => .ok "") := rfl
    rw [hred] at h
    split at h <;> exact Except.noConfusion h
  | bool b => exact Except.noConfusion h
  | num r => exact Except.noConfusion h
  | str s => exact Except.noConfusion h
  | arr xs => exact Except.noConfusion h

/-- The only `TypeError` the inner content join throws is the null-property
one. -/
theorem contentParts_error (cs : List JsonVal) :
    ∀ e, contentParts cs = .error e →
      e = "TypeError: Cannot read properties of null" := by
  induction cs with
  | nil =>
    intro e h
    exact Except.noConfusion h
  | cons c rest ih =>
    intro e h
    unfold contentParts at h
    split at h
    · rename_i e1 he
      injection h with h1
      rw [← h1]
      exact contentPartText_error c e1 he
    · split at h
      · rename_i e1 he
        injection h with h1
        rw [← h1]
        exact ih e1 he
      · exact Except.noConfusion h

/-- The only `TypeError` the outer mapping throws is the null-property one. -/
theorem partText_error (p : JsonVal) (e : String)
    (h : partText p = .error e) :
    e = "TypeError: Cannot read properties of null" := by
  cases p with
  | null =>
    injection h with h1
    exact h1.symm
  | obj pfs =>
    have hred : partText (.obj pfs) =
        (match lookupField pfs "text" with
         | some (.str s) => .ok s
         | _ =>
           match lookupField pfs "content" with
           | some (.arr cs) => contentParts cs
           | _ => .ok "") := rfl
    rw [hred] at h
    split at h
    · exact Except.noConfusion h
    · split at h
      · exact contentParts_error _ e h
      · exact Except.noConfusion h
  | bool b => exact Except.noConfusion h
  | num r => exact Except.noConfusion h
  | str s => exact Except.noConfusion h
  | arr xs => exact Except.noConfusion h

/-- The only `TypeError` the outer join throws is the null-property one. -/
theorem partsText_error (ps : List JsonVal) :
    ∀ e, partsText ps = .error e →
      e = "TypeError: Cannot read properties of null" := by
  induction ps with
  | nil =>
    intro e h
    exact Except.noConfusion h
  | cons p rest ih =>
    intro e h
    unfold partsText at h
    split at h
    · rename_i e1 he
      injection h with h1
      rw [← h1]
      exact partText_error p e1 he
    · split at h
      · rename_i e1 he
        injection h with h1
        rw [← h1]
        exact ih e1 he
      · exact Except.noConfusion h

/-! ## Claim C10 -/

/-- A model response whose `content[0].text` is a truthy non-string. -/
def c10Json : JsonVal := .obj [("content", .arr [.obj [("text", .num "123")]])]

/-- A model response with a `null` element in `output`. -/
def c10NullJson : JsonVal := .obj [("output", .arr [.null])]

/-- Claim C10 (counterexample).  The claim says `extractOutputText` returns a
string for every JSON value and that `callOpenAI` consequently never fails on
unparseable model output; but on `\x7b"content":[\x7b"text":123\x7d]\x7d` the
function returns the number `123` verbatim, `safeParseJson`'s `raw?.trim()`
is not guarded against non-strings, and `callOpenAI` throws; and on
`\x7b"output":[null]\x7d` the scan of `j.output` reads `p.text` of a `null`
element, so `extractOutputText` itself throws a `TypeError` and `callOpenAI`
fails before any parsing is attempted. -/
theorem c10_parsing_total_counterexample :
    extractOutputText c10Json = .ok (.num "123") ∧
    safeParseJsonJS (.num "123") =
      .error "TypeError: raw.trim is not a function" ∧
    callOpenAI true true 200 "" c10Json "todo app" =
      .error "TypeError: raw.trim is not a function" ∧
    extractOutputText c10NullJson =
      .error "TypeError: Cannot read properties of null" ∧
    callOpenAI true true 200 "" c10NullJson "todo app" =
      .error "TypeError: Cannot read properties of null" :=
  ⟨rfl, rfl, rfl, rfl, rfl⟩

/-- Claim C10 (amended).  `safeParseJson` is total on strings: it returns
either a value parsed from the trimmed input or from the slice between the
first `\x7b` and the last `\x7d`, or `null`.  `extractOutputText` is not
total: it throws a `TypeError` when the scan of `j.output` (or of a
`p.content` inside it) reaches a `null` element; in every other case it
returns a string, except for one branch — a truthy `j.content[0].text` is
returned verbatim, whatever its type.  Whenever the extracted text is a
string that does not parse, `callOpenAI` does not fail: it substitutes the
default IR (name from the first 24 chars of the idea, `app_type` "spa") and
an empty file map. -/
theorem c10_parsing_total_amended :
    (∀ s : String, safeParseJson s = none ∨
      ∃ v, safeParseJson s = some v ∧
        (jsonParse (jsTrim s) = some v ∨
         ∃ a b, firstIdxOf (jsTrim s) lbrace = some a ∧ lastIdxOf (jsTrim s) rbrace = some b ∧
           a < b ∧ jsonParse (String.mk (((jsTrim s).data.drop a).take (b + 1 - a))) = some v)) ∧
    (∀ j : JsonVal,
      extractOutputText j = .error "TypeError: Cannot read properties of null" ∨
      (∃ s, extractOutputText j = .ok (.str s)) ∨
      (∃ c0 rest, jsGet j "content" = some (.arr (c0 :: rest)) ∧
        optChainGet (some c0) "text" = some (contentFallback j) ∧
        jsTruthy (contentFallback j) = true ∧
        extractOutputText j = .ok (contentFallback j))) ∧
    (∀ (st : Nat) (txt : String) (j : JsonVal) (idea s : String),
      extractOutputText j = .ok (.str s) → safeParseJson s = none →
      callOpenAI true true st txt j idea = .ok
        ⟨.obj [("name", .str (String.mk
            ((if idea = "" then "launchwing-app" else idea).data.take 24))),
          ("app_type", .str "spa")], .obj [], true, []⟩) := by
  refine ⟨?_, ?_, ?_⟩
  · intro s
    by_cases hemp : jsTrim s = ""
    · exact Or.inl (by simp [safeParseJson, hemp])
    · cases hp : jsonParse (jsTrim s) with
      | some v => exact Or.inr ⟨v, by simp [safeParseJson, hemp, hp], Or.inl rfl⟩
      | none =>
        cases ha : firstIdxOf (jsTrim s) lbrace with
        | none => exact Or.inl (by simp [safeParseJson, hemp, hp, ha])
        | some a =>
          cases hb : lastIdxOf (jsTrim s) rbrace with
          | none => exact Or.inl (by simp [safeParseJson, hemp, hp, ha, hb])
          | some b =>
            by_cases hab : a < b
            · cases hs : jsonParse (String.mk (((jsTrim s).data.drop a).take (b + 1 - a))) with
              | none =>
                exact Or.inl (by simp [safeParseJson, hemp, hp, ha, hb, hab, hs])
              | some v =>
                exact Or.inr ⟨v, by simp [safeParseJson, hemp, hp, ha, hb, hab, hs],
                  Or.inr ⟨a, b, rfl, rfl, hab, hs⟩⟩
            · exact Or.inl (by simp [safeParseJson, hemp, hp, ha, hb, hab])
  · intro j
    unfold extractOutputText
    split
    · exact Or.inr (Or.inl ⟨"", rfl⟩)
    · split
      · rename_i s _
        exact Or.inr (Or.inl ⟨s, rfl⟩)
      · split
        · split
          · rename_i e he
            rw [partsText_error _ _ he]
            exact Or.inl rfl
          · split
            · exact Or.inr (Or.inl ⟨_, rfl⟩)
            · rcases contentFallback_spec j with ⟨s, hs⟩ | ⟨c0, rest, h1, h2, h3⟩
              · exact Or.inr (Or.inl ⟨s, by rw [hs]⟩)
              · exact Or.inr (Or.inr ⟨c0, rest, h1, h2, h3, rfl⟩)
        · rcases contentFallback_spec j with ⟨s, hs⟩ | ⟨c0, rest, h1, h2, h3⟩
          · exact Or.inr (Or.inl ⟨s, by rw [hs]⟩)
          · exact Or.inr (Or.inr ⟨c0, rest, h1, h2, h3, rfl⟩)
  · intro st txt j idea s hext hparse
    unfold callOpenAI
    simp only [Bool.not_true, Bool.false_eq_true, if_false, Bind.bind, Except.bind,
      hext, safeParseJsonJS, hparse]
    rfl

/-- Witness for claim C10: part one at the string `"x"`, part two at the
counterexample value, part three at a concrete unparseable model output. -/
theorem c10_parsing_total_witness :
    (safeParseJson "x" = none ∨
      ∃ v, safeParseJson "x" = some v ∧
        (jsonParse (jsTrim "x") = some v ∨
         ∃ a b, firstIdxOf (jsTrim "x") lbrace = some a ∧ lastIdxOf (jsTrim "x") rbrace = some b ∧
           a < b ∧ jsonParse (String.mk (((jsTrim "x").data.drop a).take (b + 1 - a))) = some v)) ∧
    (extractOutputText c10Json = .error "TypeError: Cannot read properties of null" ∨
      (∃ s, extractOutputText c10Json = .ok (.str s)) ∨
      (∃ c0 rest, jsGet c10Json "content" = some (.arr (c0 :: rest)) ∧
        optChainGet (some c0) "text" = some (contentFallback c10Json) ∧
        jsTruthy (contentFallback c10Json) = true ∧
        extractOutputText c10Json = .ok (contentFallback c10Json))) ∧
    callOpenAI true true 200 "" (.obj [("output_text", .str "notjson")]) "todo app" = .ok
      ⟨.obj [("name", .str (String.mk
          ((if ("todo app" : String) = "" then "launchwing-app" else "todo app").data.take 24))),
        ("app_type", .str "spa")], .obj [], true, []⟩ :=
  ⟨c10_parsing_total_amended.1 "x",
   c10_parsing_total_amended.2.1 c10Json,
   c10_parsing_total_amended.2.2 200 "" (.obj [("output_text", .str "notjson")])
     "todo app" "notjson" rfl rfl⟩

/-! ## Claim C7 -/

/-- A GitHub environment with both bindings present. -/
def benignGh : GhEnv := ⟨true, true, "LaunchWing"⟩

/-- A repository oracle whose existence probe answers 200. -/
def benignRepo : RepoOracle := ⟨200, .obj [], true, 201, "", .obj []⟩

/-- A per-file oracle whose GET misses and whose PUT succeeds. -/
def benignFile : String → FileOracle := fun _ => ⟨404, .null, true, 201⟩

/-- `sanitizeGeneratedFiles` instantiated as the identity on the file map's
entries (its real behaviour is not in the source dump and no claim depends
on it). -/
def identitySanitize : JsonVal → String → List (String × String) :=
  fun f _ => (jsEntries f).map (fun e => (e.1, jsToString e.2))

/-- An OpenAI response whose output text is not JSON. -/
def c7OaiJson : JsonVal := .obj [("output_text", .str "notjson")]

/-- Claim C7 (counterexample).  The claim says every `/mvp` request with an
empty or whitespace-only idea yields an error result; but the worker
`mvpHandler` performs no such validation: with the whitespace idea `" "`
(`input.idea || ...` keeps any non-empty string) it completes with a 200
`ok:true` response. -/
theorem c7_empty_idea_counterexample :
    jsTrim " " = "" ∧
    mvpHandler " " true true 200 "" c7OaiJson "t0" identitySanitize
        benignGh benignRepo benignFile =
      .ok ⟨200, true, "https://github.com/LaunchWing/-", "-",
        .obj [("name", .str " "), ("app_type", .str "spa")]⟩ :=
  ⟨rfl, rfl⟩

/-- Claim C7 (amended).  The Pages `/mvp` function does validate: an empty or
whitespace-only idea is answered with 400 "Missing idea".  The worker
`mvpHandler` does not validate the idea at all: for every idea string —
whitespace-only included — a request whose remaining collaborators succeed
is answered 200 with `ok:true`. -/
theorem c7_empty_idea_amended (idea0 : String) (hasKey : Bool) (oai : OaiHttp)
    (hempty : jsTrim idea0 = "")
    (idea : String) (st : Nat) (txt : String) (j : JsonVal) (tag : String)
    (agent : MvpAgentResult) (nm : String) (gh : GhEnv) (ro : RepoOracle)
    (fo : String → FileOracle)
    (hagent : callOpenAI true true st txt j idea = .ok agent)
    (hnm : appNameOf agent.ir tag = .ok nm)
    (htok : gh.hasToken = true) (horg : gh.hasOrg = true)
    (hget : ro.getStatus = 200)
    (hput : ∀ p, (fo p).putOk = true) :
    onRequestPost idea0 hasKey oai = .err 400 "Missing idea" ∧
    mvpHandler idea true true st txt j tag identitySanitize gh ro fo =
      .ok ⟨200, true, "https://github.com/" ++ gh.org ++ "/" ++ nm, nm, agent.ir⟩ := by
  constructor
  · unfold onRequestPost
    simp [hempty]
  · unfold mvpHandler
    rw [hagent]
    simp only [Bind.bind, Except.bind]
    rw [hnm]
    simp only [ensureRepo, pushFilesWithContentsAPI, htok, horg, hget, Bool.not_true,
      Bool.false_eq_true, if_false, if_true]
    rw [pushLoop_all_ok fo _ _ (fun e _ => hput e.1)]
    rfl

/-- Witness for claim C7 at the whitespace idea `" "` and benign oracles. -/
theorem c7_empty_idea_witness :
    onRequestPost " " true ⟨true, 200, ""⟩ = .err 400 "Missing idea" ∧
    mvpHandler " " true true 200 "" c7OaiJson "t0" identitySanitize
        benignGh benignRepo benignFile =
      .ok ⟨200, true, "https://github.com/" ++ benignGh.org ++ "/" ++ "-", "-",
        (MvpAgentResult.mk (.obj [("name", .str " "), ("app_type", .str "spa")])
          (.obj []) true []).ir⟩ :=
  c7_empty_idea_amended " " true ⟨true, 200, ""⟩ rfl
    " " 200 "" c7OaiJson "t0"
    ⟨.obj [("name", .str " "), ("app_type", .str "spa")], .obj [], true, []⟩
    "-" benignGh benignRepo benignFile
    rfl rfl rfl rfl rfl (fun _ => rfl)

/-! ## Claim C8 -/

/-- The request body `\x7b"confirm":false\x7d`. -/
def c8Body : JsonVal := .obj [("confirm", .bool false)]

/-- A successful stage-6 deploy result for the claim C8 counterexample. -/
def c8Dep : DeployResult :=
  ⟨true, some "n", some "https://u.workers.dev/", none, none, none, none⟩

/-- Claim C8 (counterexample).  The claim says every `/sandbox-deploy`
request without a truthy `confirm` is answered 400 with
`\x7b"ok":false,"error":"confirm=false"\x7d` and no deployment side effects;
but the first revision of `sandboxDeployHandler` (the generation-pipeline
one) has no confirm gate at all: with `\x7b"confirm":false\x7d` it runs the
deploy and answers 200. -/
theorem c8_confirm_gate_counterexample :
    (sandboxDeployHandlerV1 c8Body (.ok (.obj [("name", .str "x")])) c8Dep).status = 200 ∧
    (sandboxDeployHandlerV1 c8Body (.ok (.obj [("name", .str "x")])) c8Dep).deployCalled = true :=
  ⟨rfl, rfl⟩

/-- Claim C8 (amended).  In the dual-mode revisions of
`sandboxDeployHandler` the claim holds: whenever the body's `confirm` field
is not truthy (false, missing, or an unparseable body read as `\x7b\x7d`),
the handler answers 400 with exactly `\x7b"ok":false,"error":"confirm=false"\x7d`
and attempts no deployment; the first revision deploys unconditionally. -/
theorem c8_confirm_gate_amended (body : JsonVal) (defaultMode : Option String)
    (rand : String) (accountId : Option String) (po : PagesOracle) (wo : WorkerOracle)
    (hc : jsTruthy (jsOrOpt (jsGet body "confirm") (.bool false)) = false) :
    sandboxDeployHandlerV2 body defaultMode rand accountId po wo =
      ⟨400, .obj [("ok", .bool false), ("error", .str "confirm=false")], none, false, false⟩ ∧
    jsonStringify (.obj [("ok", .bool false), ("error", .str "confirm=false")]) =
      "\x7b\"ok\":false,\"error\":\"confirm=false\"\x7d" := by
  constructor
  · unfold sandboxDeployHandlerV2
    rw [hc]
    rfl
  · rfl

/-- Witness for claim C8 at the body `\x7b"confirm":false\x7d`. -/
theorem c8_confirm_gate_witness :
    sandboxDeployHandlerV2 c8Body none "ab" (some "acc") benignPages benignWorker =
      ⟨400, .obj [("ok", .bool false), ("error", .str "confirm=false")], none, false, false⟩ ∧
    jsonStringify (.obj [("ok", .bool false), ("error", .str "confirm=false")]) =
      "\x7b\"ok\":false,\"error\":\"confirm=false\"\x7d" :=
  c8_confirm_gate_amended c8Body none "ab" (some "acc") benignPages benignWorker rfl

/-! ## Claim C6 -/

/-- The OpenAI envelope whose output text is `x\x7by\x7d`: not JSON, but with a
brace slice (`\x7by\x7d`) that is not JSON either. -/
def c6Raw : String := jsonStringify (.obj [("output_text", .str "x\x7by\x7d")])

/-- Claim C6 (counterexample).  The claim says malformed model output — not
parseable even after best-effort extraction — is surfaced as 502; but when
the extracted brace slice exists and fails to parse, `JSON.parse(m[0])`
throws inside the catch block and the outer catch replies 500, not 502. -/
theorem c6_malformed_502_counterexample :
    (onRequestPost "todo app" true ⟨true, 200, c6Raw⟩).status = 500 ∧
    ¬ ((onRequestPost "todo app" true ⟨true, 200, c6Raw⟩).status = 502) :=
  ⟨rfl, by decide⟩

/-- On a parsed result with an empty file map and no artifacts, the
normalisation reduces to the `_worker.js` injection and its smoke log push:
a successful push yields the injected bundle. -/
theorem mvpNormalizeFields_empty_ok (fs : List (String × JsonVal)) (sm : JsonVal)
    (hfiles : lookupField fs "files" = some (.obj []))
    (harts : lookupField fs "artifacts" = none)
    (hpush : smokePush (resultSmoke fs) INJECT_LOG = .ok sm) :
    mvpNormalizeFields fs = .ok (resultIR fs, sm, [("_worker.js", PROXY_WORKER_JS)]) := by
  have hf0 : resultFiles fs = .obj [] := by
    unfold resultFiles
    rw [hfiles]
    rfl
  have ha0 : resultArts fs = .obj [] := by
    unfold resultArts
    rw [harts]
    rfl
  have hsynth : synthStep fs = .ok ([], resultSmoke fs) := by
    unfold synthStep
    rw [hf0, ha0]
    rfl
  unfold mvpNormalizeFields
  rw [hsynth]
  dsimp only
  rw [hpush]
  rfl

/-- On a parsed result with an empty file map and no artifacts, a failing
smoke log push at the `_worker.js` injection propagates as the thrown
error. -/
theorem mvpNormalizeFields_empty_err (fs : List (String × JsonVal)) (e : String)
    (hfiles : lookupField fs "files" = some (.obj []))
    (harts : lookupField fs "artifacts" = none)
    (hpush : smokePush (resultSmoke fs) INJECT_LOG = .error e) :
    mvpNormalizeFields fs = .error e := by
  have hf0 : resultFiles fs = .obj [] := by
    unfold resultFiles
    rw [hfiles]
    rfl
  have ha0 : resultArts fs = .obj [] := by
    unfold resultArts
    rw [harts]
    rfl
  have hsynth : synthStep fs = .ok ([], resultSmoke fs) := by
    unfold synthStep
    rw [hf0, ha0]
    rfl
  unfold mvpNormalizeFields
  rw [hsynth]
  dsimp only
  rw [hpush]
  rfl

/-- Claim C6 (amended).  With a non-empty idea and the API key present: a
failed upstream response is surfaced as 502 (the single model call is made
once; the handler never retries it); an unparseable envelope is a 502; a
`TypeError` thrown during the payload extraction (the `find` callback on a
`null` content element) reaches the outer catch and is a 500; an empty
extracted payload is a 502; a payload that is not JSON and has no brace
slice is a 502; but a payload whose brace slice fails to parse is surfaced
as 500 through the outer catch; and an empty parsed file bundle is not an
error at all — when `result.smoke.logs` (after the `||=` default) is an
array the handler substitutes defaults, injects `_worker.js`, logs to
smoke, and replies 200; when it is not, `result.smoke.logs.push` throws at
the injection and the outer catch replies 500. -/
theorem c6_malformed_handling_amended (idea0 : String) (st : Nat) (raw : String)
    (hidea : jsTrim idea0 ≠ "") :
    (onRequestPost idea0 true ⟨false, st, raw⟩ =
      .err 502 ("OpenAI HTTP " ++ toString st ++ " — " ++ raw)) ∧
    (onRequestPost idea0 true ⟨true, st, raw⟩ = mvpAfterFetch raw) ∧
    (jsonParse raw = none → mvpAfterFetch raw = .err 502 "Malformed JSON from OpenAI") ∧
    (∀ parsed e, jsonParse raw = some parsed → payloadOf parsed = .error e →
      mvpAfterFetch raw = .err 500 e) ∧
    (∀ parsed, jsonParse raw = some parsed → payloadOf parsed = .ok (.str "") →
      mvpAfterFetch raw = .err 502 "Empty model output") ∧
    (∀ parsed ps, jsonParse raw = some parsed → payloadOf parsed = .ok (.str ps) →
      ps ≠ "" → jsonParse ps = none → tailSlice ps = none →
      mvpAfterFetch raw = .err 502 "Could not parse JSON from model output") ∧
    (∀ parsed ps sl, jsonParse raw = some parsed → payloadOf parsed = .ok (.str ps) →
      ps ≠ "" → jsonParse ps = none → tailSlice ps = some sl → jsonParse sl = none →
      mvpAfterFetch raw = .err 500 "SyntaxError: Unexpected token in JSON") ∧
    (∀ parsed ps fs sfs l, jsonParse raw = some parsed → payloadOf parsed = .ok (.str ps) →
      ps ≠ "" → jsonParse ps = some (.obj fs) →
      lookupField fs "files" = some (.obj []) → lookupField fs "artifacts" = none →
      resultSmoke fs = .obj sfs → lookupField sfs "logs" = some (.arr l) →
      (mvpAfterFetch raw).status = 200 ∧ (mvpAfterFetch raw).isSuccess = true) ∧
    (∀ parsed ps fs e, jsonParse raw = some parsed → payloadOf parsed = .ok (.str ps) →
      ps ≠ "" → jsonParse ps = some (.obj fs) →
      lookupField fs "files" = some (.obj []) → lookupField fs "artifacts" = none →
      smokePush (resultSmoke fs) INJECT_LOG = .error e →
      mvpAfterFetch raw = .err 500 e) := by
  refine ⟨?_, ?_, ?_, ?_, ?_, ?_, ?_, ?_, ?_⟩
  · unfold onRequestPost
    simp [hidea]
  · unfold onRequestPost
    simp [hidea]
  · intro hraw
    unfold mvpAfterFetch
    rw [hraw]
  · intro parsed e hraw hpl
    unfold mvpAfterFetch
    rw [hraw]
    dsimp only
    rw [hpl]
  · intro parsed hraw hpl
    unfold mvpAfterFetch
    rw [hraw]
    dsimp only
    rw [hpl]
    rfl
  · intro parsed ps hraw hpl hne hps hsl
    have hfal : jsFalsy (.str ps) = false := by simp [jsFalsy, hne]
    unfold mvpAfterFetch
    rw [hraw]
    dsimp only
    rw [hpl]
    simp only [hfal, Bool.false_eq_true, if_false]
    rw [show jsToString (.str ps) = ps from rfl, hps, hsl]
  · intro parsed ps sl hraw hpl hne hps hsl hsl2
    have hfal : jsFalsy (.str ps) = false := by simp [jsFalsy, hne]
    unfold mvpAfterFetch
    rw [hraw]
    dsimp only
    rw [hpl]
    simp only [hfal, Bool.false_eq_true, if_false]
    rw [show jsToString (.str ps) = ps from rfl, hps, hsl]
    dsimp only
    rw [hsl2]
  · intro parsed ps fs sfs l hraw hpl hne hps hfiles harts hsm hlogs
    have hfal : jsFalsy (.str ps) = false := by simp [jsFalsy, hne]
    have hform : mvpAfterFetch raw = finishParse (.obj fs) := by
      unfold mvpAfterFetch
      rw [hraw]
      dsimp only
      rw [hpl]
      simp only [hfal, Bool.false_eq_true, if_false]
      rw [show jsToString (.str ps) = ps from rfl, hps]
    have hpush : smokePush (resultSmoke fs) INJECT_LOG =
        .ok (.obj (objInsert sfs "logs" (.arr (l ++ [.str INJECT_LOG])))) := by
      rw [hsm]
      simp [smokePush, hlogs]
    have hnf := mvpNormalizeFields_empty_ok fs _ hfiles harts hpush
    rw [hform]
    unfold finishParse mvpNormalize
    dsimp only
    rw [hnf]
    exact ⟨rfl, rfl⟩
  · intro parsed ps fs e hraw hpl hne hps hfiles harts hpush
    have hfal : jsFalsy (.str ps) = false := by simp [jsFalsy, hne]
    have hform : mvpAfterFetch raw = finishParse (.obj fs) := by
      unfold mvpAfterFetch
      rw [hraw]
      dsimp only
      rw [hpl]
      simp only [hfal, Bool.false_eq_true, if_false]
      rw [show jsToString (.str ps) = ps from rfl, hps]
    have hnf := mvpNormalizeFields_empty_err fs e hfiles harts hpush
    rw [hform]
    unfold finishParse mvpNormalize
    dsimp only
    rw [hnf]

/-- The OpenAI envelope whose output text parses to an empty file bundle. -/
def c6EmptyRaw : String :=
  jsonStringify (.obj [("output_text",
    .str (jsonStringify (.obj [("ir", .obj [("name", .str "x")]),
      ("smoke", .obj [("passed", .bool true), ("logs", .arr [])]),
      ("files", .obj [])])))])

/-- An OpenAI envelope with a `null` element in `output[0].content`. -/
def c6NullRaw : String :=
  jsonStringify (.obj [("output", .arr [.obj [("content", .arr [.null])]])])

/-- The model output with an empty file bundle and a smoke record whose
`logs` is absent. -/
def c6BadSmokePayload : String :=
  jsonStringify (.obj [("files", .obj []),
    ("smoke", .obj [("passed", .bool true)])])

/-- The OpenAI envelope carrying `c6BadSmokePayload`. -/
def c6BadSmokeRaw : String :=
  jsonStringify (.obj [("output_text", .str c6BadSmokePayload)])

/-- Witness for claim C6: the no-slice 502, the slice 500, the payload
`TypeError` 500, the empty-bundle 200, the bad-smoke 500, and the upstream
502, at concrete envelopes. -/
theorem c6_malformed_handling_witness :
    (mvpAfterFetch (jsonStringify (.obj [("output_text", .str "nojson")])) =
      .err 502 "Could not parse JSON from model output") ∧
    (mvpAfterFetch c6Raw = .err 500 "SyntaxError: Unexpected token in JSON") ∧
    (mvpAfterFetch c6NullRaw = .err 500 "TypeError: Cannot read properties of null") ∧
    ((mvpAfterFetch c6EmptyRaw).status = 200 ∧
      (mvpAfterFetch c6EmptyRaw).isSuccess = true) ∧
    (mvpAfterFetch c6BadSmokeRaw =
      .err 500 "TypeError: result.smoke.logs.push is not a function") ∧
    (onRequestPost "todo app" true ⟨false, 500, "boom"⟩ =
      .err 502 ("OpenAI HTTP " ++ toString 500 ++ " — " ++ "boom")) := by
  refine ⟨?_, ?_, ?_, ?_, ?_, ?_⟩
  · exact (c6_malformed_handling_amended "todo app" 200
      (jsonStringify (.obj [("output_text", .str "nojson")])) (by decide)).2.2.2.2.2.1
      (.obj [("output_text", .str "nojson")]) "nojson" rfl rfl (by decide) rfl rfl
  · exact (c6_malformed_handling_amended "todo app" 200 c6Raw (by decide)).2.2.2.2.2.2.1
      (.obj [("output_text", .str "x\x7by\x7d")]) "x\x7by\x7d" "\x7by\x7d"
      rfl rfl (by decide) rfl rfl rfl
  · exact (c6_malformed_handling_amended "todo app" 200 c6NullRaw (by decide)).2.2.2.1
      (.obj [("output", .arr [.obj [("content", .arr [.null])]])])
      "TypeError: Cannot read properties of null" rfl rfl
  · exact (c6_malformed_handling_amended "todo app" 200 c6EmptyRaw (by decide)).2.2.2.2.2.2.2.1
      (.obj [("output_text",
        .str (jsonStringify (.obj [("ir", .obj [("name", .str "x")]),
          ("smoke", .obj [("passed", .bool true), ("logs", .arr [])]),
          ("files", .obj [])])))])
      (jsonStringify (.obj [("ir", .obj [("name", .str "x")]),
        ("smoke", .obj [("passed", .bool true), ("logs", .arr [])]),
        ("files", .obj [])]))
      [("ir", .obj [("name", .str "x")]),
       ("smoke", .obj [("passed", .bool true), ("logs", .arr [])]),
       ("files", .obj [])]
      [("passed", .bool true), ("logs", .arr [])]
      []
      rfl rfl (by decide) rfl rfl rfl rfl rfl
  · exact (c6_malformed_handling_amended "todo app" 200 c6BadSmokeRaw
        (by decide)).2.2.2.2.2.2.2.2
      (.obj [("output_text", .str c6BadSmokePayload)])
      c6BadSmokePayload
      [("files", .obj []), ("smoke", .obj [("passed", .bool true)])]
      "TypeError: result.smoke.logs.push is not a function"
      rfl rfl (by decide) rfl rfl rfl rfl
  · exact (c6_malformed_handling_amended "todo app" 500 "boom" (by decide)).1

/-! ## Shared lemmas about the guardrails on a singleton bundle -/

/-- UTF-8 size distributes over string append. -/
theorem utf8Len_str_append (a b : String) : utf8Len (a ++ b) = utf8Len a + utf8Len b := by
  cases a with
  | mk la =>
    cases b with
    | mk lb =>
      have h : (String.mk la ++ String.mk lb) = String.mk (la ++ lb) := rfl
      simp [utf8Len, h]

set_option maxRecDepth 4000 in
/-- The synthesised `index.html` is far below the byte cap (computed chunk
by chunk to keep reductions shallow). -/
theorem synth_bytes_le : utf8Len (synthIndexHTML defaultIR) ≤ MAX_BYTES := by
  have ht : synthTitle defaultIR = "Generated App" := rfl
  rw [synthIndexHTML, ht, SYNTH_PRE, SYNTH_MID, SYNTH_POST]
  simp only [utf8Len_str_append]
  decide

/-- The guardrail pass on a one-file bundle below the byte cap keeps the file
and appends the proxy worker. -/
theorem applyGuardrails_single (p c : String) (hp : stripLeadingSlashes p = p)
    (hsz : utf8Len c ≤ MAX_BYTES) (h1 : p ≠ "_worker.js") (h2 : p ≠ "_worker.ts") :
    applyGuardrails [(p, .str c)] = [(p, c), ("_worker.js", PROXY_WORKER_JS)] := by
  have hse : sanitizeEntry (p, .str c) = (p, c) := by
    simp [sanitizeEntry, coerceContent, hp, jsToString]
  unfold applyGuardrails enforceLimits
  simp only [List.map_cons, List.map_nil, hse]
  unfold limitLoop
  rw [if_neg (by decide : ¬ MAX_FILES ≤ 0)]
  rw [if_neg (by omega : ¬ MAX_BYTES < 0 + utf8Len c)]
  unfold limitLoop
  simp [injectWorker, hasFileKey, h1, h2]

/-- The guardrail loop keeps a single in-cap file unchanged. -/
theorem enforceLimits_single (p c : String) (hp : stripLeadingSlashes p = p)
    (hsz : utf8Len c ≤ MAX_BYTES) :
    enforceLimits [(p, .str c)] = [(p, c)] := by
  have hse : sanitizeEntry (p, .str c) = (p, c) := by
    simp [sanitizeEntry, coerceContent, hp, jsToString]
  unfold enforceLimits
  simp only [List.map_cons, List.map_nil, hse]
  unfold limitLoop
  rw [if_neg (by decide : ¬ MAX_FILES ≤ 0)]
  rw [if_neg (by omega : ¬ MAX_BYTES < 0 + utf8Len c)]
  unfold limitLoop
  rfl

/-- A freshly inserted key is found by `lookupField`. -/
theorem lookupField_objInsert (fs : List (String × JsonVal)) (k : String) (v : JsonVal) :
    lookupField (objInsert fs k v) k = some v := by
  induction fs with
  | nil => simp [objInsert, lookupField]
  | cons e rest ih =>
    obtain ⟨a, b⟩ := e
    by_cases h : a = k
    · simp [objInsert, lookupField, h]
    · simp [objInsert, lookupField, h, ih]

/-! ## Claim C2 -/

/-- The IR of a success outcome, if any. -/
def MvpOut.irOf : MvpOut → Option JsonVal
  | .err _ _ => none
  | .success ir _ _ => some ir

/-- A well-formed model output with an empty `ir.name` and a file map that
lacks `index.html`. -/
def c2Payload : String :=
  jsonStringify (.obj [("ir", .obj [("name", .str "")]),
    ("smoke", .obj [("passed", .bool true), ("logs", .arr [])]),
    ("files", .obj [("a.txt", .str "hi")])])

/-- The OpenAI envelope carrying `c2Payload`. -/
def c2Raw : String := jsonStringify (.obj [("output_text", .str c2Payload)])

set_option maxRecDepth 100000 in
/-- Claim C2 (counterexample).  The claim says the success response for
`POST /mvp \x7b"idea":"todo app"\x7d` has a non-empty `result.ir.name` and an
`index.html` entry; but both depend entirely on the model output: when the
model returns `ir.name = ""` and a non-empty file map without `index.html`,
the handler replies 200 with that empty name and no `index.html` (only the
injected `_worker.js` is guaranteed). -/
theorem c2_mvp_scenario_counterexample :
    (onRequestPost "todo app" true ⟨true, 200, c2Raw⟩).isSuccess = true ∧
    (onRequestPost "todo app" true ⟨true, 200, c2Raw⟩).irOf =
      some (.obj [("name", .str "")]) ∧
    hasFileKey "index.html" (onRequestPost "todo app" true ⟨true, 200, c2Raw⟩).files = false ∧
    hasFileKey "_worker.js" (onRequestPost "todo app" true ⟨true, 200, c2Raw⟩).files = true :=
  ⟨rfl, rfl, rfl, rfl⟩

set_option maxRecDepth 100000 in
/-- Claim C2 (amended).  For `POST /mvp \x7b"idea":"todo app"\x7d` the claimed
shape is guaranteed only when the model output forces the defaults: if the
parsed output has no `ir` and no `files` but a non-empty `artifacts` map,
and its `smoke` (after the `||=` default) is an object whose `logs` is an
array — otherwise `result.smoke.logs.push` throws and the reply is a 500 —
then the handler substitutes `ir = \x7b name: "Generated App", ... \x7d` (a
non-empty name) and synthesises `index.html`, so the success response
contains both; in general the response contents follow the model output
(only a `_worker.js` entry is always ensured). -/
theorem c2_mvp_scenario_amended (st : Nat) (raw : String) (parsed : JsonVal)
    (ps : String) (fs sfs : List (String × JsonVal)) (l : List JsonVal)
    (hraw : jsonParse raw = some parsed)
    (hpl : payloadOf parsed = .ok (.str ps))
    (hne : ps ≠ "")
    (hps : jsonParse ps = some (.obj fs))
    (hir : lookupField fs "ir" = none)
    (hfiles : lookupField fs "files" = none)
    (harts : (jsEntries (resultArts fs)).isEmpty = false)
    (hsm : resultSmoke fs = .obj sfs)
    (hlogs : lookupField sfs "logs" = some (.arr l)) :
    (onRequestPost "todo app" true ⟨true, st, raw⟩).isSuccess = true ∧
    (onRequestPost "todo app" true ⟨true, st, raw⟩).irOf = some defaultIR ∧
    (onRequestPost "todo app" true ⟨true, st, raw⟩).files =
      [("index.html", synthIndexHTML defaultIR), ("_worker.js", PROXY_WORKER_JS)] ∧
    jsGet defaultIR "name" = some (.str "Generated App") ∧
    hasFileKey "index.html" (onRequestPost "todo app" true ⟨true, st, raw⟩).files = true := by
  have h0 : onRequestPost "todo app" true ⟨true, st, raw⟩ = mvpAfterFetch raw := by
    unfold onRequestPost
    simp [show jsTrim "todo app" ≠ "" from by decide]
  have hfal : jsFalsy (.str ps) = false := by simp [jsFalsy, hne]
  have h1 : mvpAfterFetch raw = finishParse (.obj fs) := by
    unfold mvpAfterFetch
    rw [hraw]
    dsimp only
    rw [hpl]
    simp only [hfal, Bool.false_eq_true, if_false]
    rw [show jsToString (.str ps) = ps from rfl, hps]
  have hirx : resultIR fs = defaultIR := by
    unfold resultIR
    rw [hir]
    rfl
  have hf0 : resultFiles fs = .obj [] := by
    unfold resultFiles
    rw [hfiles]
    rfl
  have hsynth : synthStep fs = .ok ([("index.html", .str (synthIndexHTML defaultIR))],
      .obj (objInsert sfs "logs" (.arr (l ++ [.str SYNTH_LOG])))) := by
    unfold synthStep
    rw [hf0, harts, hsm, hirx]
    simp [smokePush, hlogs, jsEntries, objInsert]
  have hout : enforceLimits [("index.html", .str (synthIndexHTML defaultIR))] =
      [("index.html", synthIndexHTML defaultIR)] :=
    enforceLimits_single "index.html" (synthIndexHTML defaultIR) rfl synth_bytes_le
  have hpush2 : smokePush (.obj (objInsert sfs "logs" (.arr (l ++ [.str SYNTH_LOG]))))
      INJECT_LOG =
      .ok (.obj (objInsert (objInsert sfs "logs" (.arr (l ++ [.str SYNTH_LOG]))) "logs"
        (.arr ((l ++ [.str SYNTH_LOG]) ++ [.str INJECT_LOG])))) := by
    simp [smokePush, lookupField_objInsert]
  have hnf : mvpNormalizeFields fs = .ok (defaultIR,
      .obj (objInsert (objInsert sfs "logs" (.arr (l ++ [.str SYNTH_LOG]))) "logs"
        (.arr ((l ++ [.str SYNTH_LOG]) ++ [.str INJECT_LOG]))),
      [("index.html", synthIndexHTML defaultIR), ("_worker.js", PROXY_WORKER_JS)]) := by
    unfold mvpNormalizeFields
    rw [hsynth]
    dsimp only
    rw [hout]
    rw [show hasFileKey "_worker.js" [("index.html", synthIndexHTML defaultIR)] = false
      from rfl]
    rw [show hasFileKey "_worker.ts" [("index.html", synthIndexHTML defaultIR)] = false
      from rfl]
    rw [hpush2, hirx]
    rfl
  have hmain : onRequestPost "todo app" true ⟨true, st, raw⟩ = .success defaultIR
      (.obj (objInsert (objInsert sfs "logs" (.arr (l ++ [.str SYNTH_LOG]))) "logs"
        (.arr ((l ++ [.str SYNTH_LOG]) ++ [.str INJECT_LOG]))))
      [("index.html", synthIndexHTML defaultIR), ("_worker.js", PROXY_WORKER_JS)] := by
    rw [h0, h1]
    unfold finishParse mvpNormalize
    dsimp only
    rw [hnf]
  refine ⟨?_, ?_, ?_, rfl, ?_⟩
  · rw [hmain]
    rfl
  · rw [hmain]
    rfl
  · rw [hmain]
    rfl
  · rw [hmain]
    rfl

/-- A model output with only artifacts, for the claim C2 witness. -/
def c2ArtsPayload : String :=
  jsonStringify (.obj [("smoke", .obj [("passed", .bool true), ("logs", .arr [])]),
    ("artifacts", .obj [("App.tsx", .str "x")])])

/-- The OpenAI envelope carrying `c2ArtsPayload`. -/
def c2ArtsRaw : String := jsonStringify (.obj [("output_text", .str c2ArtsPayload)])

set_option maxRecDepth 100000 in
/-- Witness for claim C2 at a concrete artifacts-only model output. -/
theorem c2_mvp_scenario_witness :
    (onRequestPost "todo app" true ⟨true, 200, c2ArtsRaw⟩).isSuccess = true ∧
    (onRequestPost "todo app" true ⟨true, 200, c2ArtsRaw⟩).irOf = some defaultIR ∧
    (onRequestPost "todo app" true ⟨true, 200, c2ArtsRaw⟩).files =
      [("index.html", synthIndexHTML defaultIR), ("_worker.js", PROXY_WORKER_JS)] ∧
    jsGet defaultIR "name" = some (.str "Generated App") ∧
    hasFileKey "index.html"
      (onRequestPost "todo app" true ⟨true, 200, c2ArtsRaw⟩).files = true :=
  c2_mvp_scenario_amended 200 c2ArtsRaw
    (.obj [("output_text", .str c2ArtsPayload)]) c2ArtsPayload
    [("smoke", .obj [("passed", .bool true), ("logs", .arr [])]),
     ("artifacts", .obj [("App.tsx", .str "x")])]
    [("passed", .bool true), ("logs", .arr [])]
    []
    rfl rfl (by decide) rfl rfl rfl rfl rfl rfl

end LaunchWing
